import Mathlib

/-!
Shallow embedding of the TIS-py00 node execution engine (src/tis_node.py,
src/tis_helpers.py, src/ast_nodes.py) and of the lexer (src/tis_lexer.py),
with theorems checking the specification's claims against it.

Python integers are modelled as `Int`.  CPython's `is`/`is not` comparisons
on small integers (interned in [-5, 256]) behave as equality on the values the
programs reach, and are modelled as equality.  Exceptions are modelled with
`Except`: a raised exception aborts the computation with a `PyErr` value.
-/

/-- The Python exception kinds the embedded code can raise.  `TISSyntaxError`
is a subclass of `ExecutionError` in src/tis_helpers.py; the remaining
constructors model built-in Python exceptions reachable from the embedded
code paths. -/
inductive PyErr where
  | executionError
  | tisSyntaxError
  | notImplementedError
  | typeError
  | keyError
  | attributeError
  | indexError
  | recursionError
  | unboundLocalError
deriving DecidableEq, Repr

abbrev PRes (α : Type) := Except PyErr α

/-- AST node kinds, from src/ast_nodes.py (the namedtuple classes). -/
inductive ASTNode where
  | IntegerLiteral (value : Int)
  | PortLiteral (name : String)
  | RegisterLiteral (name : String)
  | Label (name : String)
  | LabelReference (name : String)
  | NArgumentInstruction (op : String) (args : List ASTNode)
deriving Repr

/-- `NodeWriteState` from src/tis_helpers.py. -/
inductive NodeWriteState where
  | READABLE
  | WILL_BE_READABLE
  | RUNNING
  | WILL_BE_RUNNING
deriving DecidableEq, Repr

/-- Python list indexing `l[i]`: negative indices count from the end,
out-of-range raises `IndexError`. -/
def pyIndex {α : Type} (l : List α) (i : Int) : PRes α :=
  let j : Int := if i < 0 then i + l.length else i
  if j < 0 then .error .indexError
  else
    match l.get? j.toNat with
    | some x => .ok x
    | none => .error .indexError

/-- Python list item assignment `l[i] = v`. -/
def pySetIdx {α : Type} (l : List α) (i : Int) (v : α) : PRes (List α) :=
  let j : Int := if i < 0 then i + l.length else i
  if j < 0 then .error .indexError
  else if j.toNat < l.length then .ok (l.set j.toNat v)
  else .error .indexError

/-- Python dict write `d[k] = v` for a string-keyed dict modelled as an
association list (overwrites an existing binding). -/
def dictInsert (d : List (String × Nat)) (k : String) (v : Nat) : List (String × Nat) :=
  match d with
  | [] => [(k, v)]
  | (k', v') :: rest => if k' = k then (k, v) :: rest else (k', v') :: dictInsert rest k v

/-- Python dict read `d.get(k, None)` for a string-keyed dict. -/
def dictFind (d : List (String × Nat)) (k : String) : Option Nat :=
  match d with
  | [] => none
  | (k', v') :: rest => if k' = k then some v' else dictFind rest k

/-- Python dict read for the `ast_real_instr_lookup` dict (int keys). -/
def dictFindNat (d : List (Nat × Nat)) (k : Nat) : Option Nat :=
  match d with
  | [] => none
  | (k', v') :: rest => if k' = k then some v' else dictFindNat rest k

/- ===== Validator (src/tis_helpers.py) ===== -/

/-- The `type(...)` tag of an AST node, used by the validator's type checks. -/
inductive ArgKind where
  | integerLiteral
  | portLiteral
  | registerLiteral
  | label
  | labelReference
  | nArgumentInstruction
deriving DecidableEq, Repr

def typeOf : ASTNode → ArgKind
  | .IntegerLiteral _ => .integerLiteral
  | .PortLiteral _ => .portLiteral
  | .RegisterLiteral _ => .registerLiteral
  | .Label _ => .label
  | .LabelReference _ => .labelReference
  | .NArgumentInstruction _ _ => .nArgumentInstruction

/-- The shape of the second component of an `opcode_check_dict` entry:
a tuple of tuples (per-position type sets), a flat tuple of types, or a
single type — mirroring the three shapes the Python dict holds, which
`validate_instruction` normalizes. -/
inductive CheckTypes where
  | perPosition (kss : List (List ArgKind))
  | flat (ks : List ArgKind)
  | single (k : ArgKind)
deriving Repr

/-- `opcode_check_dict` from src/tis_helpers.py. -/
def opcode_check_dict : List (String × (Nat × Option CheckTypes)) :=
  [ ("mov", (2, some (.perPosition
      [[.integerLiteral, .portLiteral, .registerLiteral],
       [.portLiteral, .registerLiteral]]))),
    ("nop", (0, none)),
    ("swp", (0, none)),
    ("swt", (1, some (.flat [.integerLiteral, .portLiteral, .registerLiteral]))),
    ("sav", (0, none)),
    ("add", (1, some (.flat [.integerLiteral, .portLiteral, .registerLiteral]))),
    ("sub", (1, some (.flat [.integerLiteral, .portLiteral, .registerLiteral]))),
    ("neg", (0, none)),
    ("jmp", (1, some (.single .labelReference))),
    ("jez", (1, some (.single .labelReference))),
    ("jnz", (1, some (.single .labelReference))),
    ("jgz", (1, some (.single .labelReference))),
    ("jlz", (1, some (.single .labelReference))),
    ("jro", (1, some (.flat [.integerLiteral, .portLiteral, .registerLiteral]))) ]

def dictFindCheck (d : List (String × (Nat × Option CheckTypes))) (k : String) :
    Option (Nat × Option CheckTypes) :=
  match d with
  | [] => none
  | (k', v') :: rest => if k' = k then some v' else dictFindCheck rest k

/-- The normalization `validate_instruction` performs on `check_args[1]` so
that each argument position gets a tuple of permitted types. -/
def normalize_check : CheckTypes → List (List ArgKind)
  | .perPosition kss => kss
  | .flat ks => [ks]
  | .single k => [[k]]

/-- `instr_arg_num_check` from src/tis_helpers.py. -/
def instr_arg_num_check (args : List ASTNode) (num : Nat) : PRes Unit :=
  if args.length ≠ num then .error .tisSyntaxError else .ok ()

/-- `instr_arg_type_check` from src/tis_helpers.py (tuple case: the
normalized dict always passes a tuple of types). -/
def instr_arg_type_check (node : ASTNode) (ks : List ArgKind) : PRes Unit :=
  if typeOf node ∈ ks then .ok () else .error .tisSyntaxError

def type_check_loop (kss : List (List ArgKind)) : List (Nat × ASTNode) → PRes Unit
  | [] => .ok ()
  | (inx, arg) :: rest => do
    let ks ← pyIndex kss inx
    instr_arg_type_check arg ks
    type_check_loop kss rest

/-- `validate_instruction` from src/tis_helpers.py.  Returns the label name
for a (top-level) `LabelReference` node so the caller can check it. -/
def validate_instruction (node : ASTNode) : PRes (Option String) :=
  match node with
  | .NArgumentInstruction op args =>
    match dictFindCheck opcode_check_dict op with
    | some (num, tys) => do
      instr_arg_num_check args num
      match tys with
      | some spec => do
        type_check_loop (normalize_check spec) args.enum
        return none
      | none => return none
    | none =>
      if op = "hcf" then .error .tisSyntaxError else .ok none
  | .LabelReference name => .ok (some name)
  | _ => .ok none

/-- `validate_node` from src/tis_helpers.py, over the node's ast and label
table. -/
def validate_node_ast (label_table : List (String × Nat)) : List ASTNode → PRes Unit
  | [] => .ok ()
  | nd :: rest => do
    let r ← validate_instruction nd
    match r with
    | some name =>
      match dictFind label_table name with
      | none => .error .tisSyntaxError
      | some _ => validate_node_ast label_table rest
    | none => validate_node_ast label_table rest

/- ===== Node state (src/tis_node.py, TISNode.__init__) ===== -/

structure TISNode where
  id : Int
  ast : List ASTNode
  ast_instr_real_lookup : List Nat
  ast_real_instr_lookup : List (Nat × Nat)
  ast_len : Nat
  instruction_pointer : Nat
  up_id : Option Int
  down_id : Option Int
  left_id : Option Int
  right_id : Option Int
  port_value : Option (String × Int)
  wait_port : Option String
  sent_value : Option (String × Int)
  last_port : Option String
  accs : List Int
  baks : List Int
  register_cursor : Int
  label_table : List (String × Nat)
  state : NodeWriteState
deriving Repr

/-- The `ast_instr_real_lookup` list: indices into the ast of each
`NArgumentInstruction` node, in order. -/
def build_instr_lookup (ast : List ASTNode) : List Nat :=
  (ast.enum.filterMap fun p =>
    match p.2 with
    | .NArgumentInstruction _ _ => some p.1
    | _ => none)

/-- The `ast_real_instr_lookup` reverse dict. -/
def build_real_instr_lookup (lookup_list : List Nat) : List (Nat × Nat) :=
  lookup_list.enum.map fun p => (p.2, p.1)

/-- The `label_table` dict: label name → ast index (later labels with the
same name overwrite earlier ones, as Python dict assignment does). -/
def build_label_table (ast : List ASTNode) : List (String × Nat) :=
  ast.enum.foldl
    (fun tbl p =>
      match p.2 with
      | .Label name => dictInsert tbl name p.1
      | _ => tbl)
    []

/-- `TISNode.__init__` from src/tis_node.py: builds the node state and runs
`validate_node`, raising `TISSyntaxError` on invalid programs. -/
def mkNode (id : Int) (grid_height grid_width : Int) (ast : List ASTNode) :
    PRes TISNode := do
  let lt := build_label_table ast
  validate_node_ast lt ast
  return {
    id := id
    ast := ast
    ast_instr_real_lookup := build_instr_lookup ast
    ast_real_instr_lookup := build_real_instr_lookup (build_instr_lookup ast)
    ast_len := ast.length
    instruction_pointer := 0
    up_id := if ¬ (id - grid_width < 0) then some (id - grid_width) else none
    down_id := if id + grid_width < grid_width * grid_height then some (id + grid_width) else none
    left_id := if id > 0 ∧ id % grid_width ≠ 0 then some (id - 1) else none
    right_id := if (id + 1 < grid_width * grid_height) ∧ ((id + 1) % grid_width ≠ 0)
      then some (id + 1) else none
    port_value := none
    wait_port := none
    sent_value := none
    last_port := none
    accs := List.replicate 8 0
    baks := List.replicate 8 0
    register_cursor := 0
    label_table := lt
    state := .RUNNING }

/-- The `self.directions` dict lookup `self.directions[port]`; any key other
than the four cardinal names raises `KeyError`. -/
def directionsGet (n : TISNode) (p : String) : PRes (Option Int) :=
  match p with
  | "UP" => .ok n.up_id
  | "DOWN" => .ok n.down_id
  | "LEFT" => .ok n.left_id
  | "RIGHT" => .ok n.right_id
  | _ => .error .keyError

/-- The mirrored-port dict literal in `set_value_to_port`. -/
def look_for_port_of (p : String) : PRes String :=
  match p with
  | "UP" => .ok "DOWN"
  | "DOWN" => .ok "UP"
  | "LEFT" => .ok "RIGHT"
  | "RIGHT" => .ok "LEFT"
  | _ => .error .keyError

/- ===== The machine: the `nodes` dict handed to `step` ===== -/

/-- The id → node dict the driver passes to `step` each tick, modelled as an
association list in insertion order. -/
abbrev Machine := List (Int × TISNode)

def mlookup : Machine → Int → Option TISNode
  | [], _ => none
  | (k, n) :: rest, id => if k = id then some n else mlookup rest id

def mupdate : Machine → Int → (TISNode → TISNode) → Machine
  | [], _, _ => []
  | (k, n) :: rest, id, f =>
    if k = id then (k, f n) :: mupdate rest id f
    else (k, n) :: mupdate rest id f

/-- Looking up `self` in the dict: in Python `self` is the method receiver
and always exists; a missing id here would mean the id is not in the grid. -/
def getSelf (m : Machine) (selfId : Int) : PRes TISNode :=
  match mlookup m selfId with
  | some n => .ok n
  | none => .error .keyError

/- ===== Port handshake (src/tis_node.py) ===== -/

/-- `TISNode.get_value_from_port`.  Returns the received value, or `none`
when the node must keep waiting (the Python function returns `None` in that
case, also by falling off the end after parking). -/
def get_value_from_port (m : Machine) (selfId : Int) (port : String) :
    PRes (Machine × Option Int) := do
  let self ← getSelf m selfId
  if self.wait_port.isSome then
    match self.sent_value with
    | some sv => do
      let m := mupdate m selfId fun n => { n with last_port := some sv.1 }
      let self ← getSelf m selfId
      let dirOpt ← directionsGet self sv.1
      match dirOpt with
      | none => .error .attributeError
      | some tid =>
        match mlookup m tid with
        | none => .error .attributeError
        | some _ =>
          .ok (mupdate m tid fun n => { n with port_value := none }, some sv.2)
    | none => .ok (m, none)
  else
    if port = "NIL" then .ok (m, some 0)
    else
      let portR : Option String := if port = "LAST" then self.last_port else some port
      match portR with
      | none => .ok (m, none)
      | some p =>
        .ok (mupdate m selfId fun n =>
          { n with wait_port := some p, state := .WILL_BE_RUNNING }, none)

/-- The body of `TISNode.set_value_to_port` for a concrete (non-special)
port, including the function's leading `port_value`/`state` assignments,
which every (also recursive) call performs. -/
def svp_direct (m : Machine) (selfId : Int) (port : String) (value : Int) :
    PRes (Machine × Bool) := do
  let m := mupdate m selfId fun n =>
    { n with port_value := some (port, value), state := .WILL_BE_RUNNING }
  let self ← getSelf m selfId
  let dirOpt ← directionsGet self port
  match dirOpt with
  | none => .ok (m, false)
  | some tid =>
    match mlookup m tid with
    | none => .ok (m, false)
    | some target => do
      let look ← look_for_port_of port
      if target.wait_port = some "ANY" ∨ target.wait_port = some look then
        .ok (mupdate m tid fun n => { n with sent_value := some (look, value) }, true)
      else
        .ok (m, false)

/-- The `ANY` loop of `set_value_to_port`: tries each direction in the fixed
order, skipping absent neighbors; each attempt is a recursive call on a
concrete port, which behaves exactly as `svp_direct`.  The `for`'s `else`
clause returns `False` after the loop. -/
def svp_any_loop (m : Machine) (selfId : Int) (value : Int) :
    List String → PRes (Machine × Bool)
  | [] => .ok (m, false)
  | d :: rest => do
    let self ← getSelf m selfId
    let dirOpt ← directionsGet self d
    match dirOpt with
    | none => svp_any_loop m selfId value rest
    | some _ => do
      let (m', r) ← svp_direct m selfId d value
      if r then .ok (m', true) else svp_any_loop m' selfId value rest

/-- CPython's default recursion limit, the depth bound at which unbounded
Python recursion raises `RecursionError`. -/
def python_recursion_limit : Nat := 1000

/-- `TISNode.set_value_to_port`, with the `LAST` case's recursive call
fuel-bounded like the Python stack is. -/
def svp_fuel : Nat → Machine → Int → String → Int → PRes (Machine × Bool)
  | 0, _, _, _, _ => .error .recursionError
  | fuel + 1, m, selfId, port, value =>
    if port = "ANY" ∨ port = "LAST" ∨ port = "NIL" then
      let m := mupdate m selfId fun n =>
        { n with port_value := some (port, value), state := .WILL_BE_RUNNING }
      if port = "ANY" then
        svp_any_loop m selfId value ["UP", "LEFT", "RIGHT", "DOWN"]
      else if port = "LAST" then do
        let self ← getSelf m selfId
        match self.last_port with
        | none => .ok (m, false)
        | some p => svp_fuel fuel m selfId p value
      else
        .ok (m, true)
    else
      svp_direct m selfId port value

def set_value_to_port (m : Machine) (selfId : Int) (port : String) (value : Int) :
    PRes (Machine × Bool) :=
  svp_fuel python_recursion_limit m selfId port value

/- ===== Instruction functions (src/tis_node.py) ===== -/

/-- Reading the `.name` attribute of an AST node (raises `AttributeError`
on an `IntegerLiteral`, which has no `name` field, and on instructions). -/
def ast_name : ASTNode → PRes String
  | .PortLiteral n => .ok n
  | .RegisterLiteral n => .ok n
  | .Label n => .ok n
  | .LabelReference n => .ok n
  | _ => .error .attributeError

/-- `TISNode.instr_mov`. -/
def instr_mov (m : Machine) (selfId : Int) (args : List ASTNode) :
    PRes (Machine × Bool) := do
  if args.length ≠ 2 then .error .tisSyntaxError
  else do
    let source ← pyIndex args 0
    let destination ← pyIndex args 1
    -- `source_val` is left unbound when `source` is none of the three kinds
    -- (Python would raise UnboundLocalError at its first use).
    let step1 : PRes (Machine × Option (Option Int)) ←
      match source with
      | .IntegerLiteral v => pure (.ok (m, some (some v)))
      | .PortLiteral name => do
        match get_value_from_port m selfId name with
        | .ok (m', v) => pure (.ok (m', some v))
        | .error e => pure (.error e)
      | .RegisterLiteral _ => do
        match getSelf m selfId with
        | .ok self =>
          match pyIndex self.accs self.register_cursor with
          | .ok v => pure (.ok (m, some (some v)))
          | .error e => pure (.error e)
        | .error e => pure (.error e)
      | _ => pure (.ok (m, none))
    let (m, source_val) ← step1
    -- the early `return` when a port source has no value yet
    if source_val = some none then .ok (m, false)
    else
      match destination with
      | .PortLiteral name =>
        match source_val with
        | some (some v) => set_value_to_port m selfId name v
        | _ => .error .unboundLocalError
      | .RegisterLiteral _ =>
        match source_val with
        | some (some v) => do
          let self ← getSelf m selfId
          let accs' ← pySetIdx self.accs self.register_cursor v
          .ok (mupdate m selfId fun n => { n with accs := accs' }, true)
        | _ => .error .unboundLocalError
      | _ => .ok (m, false)

/-- `TISNode.instr_add`. -/
def instr_add (m : Machine) (selfId : Int) (args : List ASTNode) :
    PRes (Machine × Bool) := do
  let add_operand ← pyIndex args 0
  match add_operand with
  | .IntegerLiteral v => do
    let self ← getSelf m selfId
    let cur ← pyIndex self.accs self.register_cursor
    let accs' ← pySetIdx self.accs self.register_cursor (cur + v)
    .ok (mupdate m selfId fun n => { n with accs := accs' }, true)
  | .PortLiteral name => do
    let (m, vo) ← get_value_from_port m selfId name
    match vo with
    | none => .ok (m, false)
    | some v => do
      let self ← getSelf m selfId
      let cur ← pyIndex self.accs self.register_cursor
      let accs' ← pySetIdx self.accs self.register_cursor (cur + v)
      .ok (mupdate m selfId fun n => { n with accs := accs' }, true)
  | .RegisterLiteral _ => do
    let self ← getSelf m selfId
    let cur ← pyIndex self.accs self.register_cursor
    let accs' ← pySetIdx self.accs self.register_cursor (cur * 2)
    .ok (mupdate m selfId fun n => { n with accs := accs' }, true)
  | _ => .ok (m, true)

/-- `TISNode.instr_sub`. -/
def instr_sub (m : Machine) (selfId : Int) (args : List ASTNode) :
    PRes (Machine × Bool) := do
  let sub_operand ← pyIndex args 0
  match sub_operand with
  | .IntegerLiteral v => do
    let self ← getSelf m selfId
    let cur ← pyIndex self.accs self.register_cursor
    let accs' ← pySetIdx self.accs self.register_cursor (cur - v)
    .ok (mupdate m selfId fun n => { n with accs := accs' }, true)
  | .PortLiteral name => do
    let (m, vo) ← get_value_from_port m selfId name
    match vo with
    | none => .ok (m, false)
    | some v => do
      let self ← getSelf m selfId
      let cur ← pyIndex self.accs self.register_cursor
      let accs' ← pySetIdx self.accs self.register_cursor (cur - v)
      .ok (mupdate m selfId fun n => { n with accs := accs' }, true)
  | .RegisterLiteral _ => do
    let self ← getSelf m selfId
    let accs' ← pySetIdx self.accs self.register_cursor 0
    .ok (mupdate m selfId fun n => { n with accs := accs' }, true)
  | _ => .ok (m, true)

/-- `TISNode.instr_sav`. -/
def instr_sav (m : Machine) (selfId : Int) (_args : List ASTNode) :
    PRes (Machine × Bool) := do
  let self ← getSelf m selfId
  let v ← pyIndex self.accs self.register_cursor
  let baks' ← pySetIdx self.baks self.register_cursor v
  .ok (mupdate m selfId fun n => { n with baks := baks' }, true)

/-- `TISNode.instr_swt`.  Note the source checks `swt_operand` (the AST
node) instead of `swt_operand_value` after a port read, so a pending port
read reaches the range check with `None` and the chained comparison raises
`TypeError`. -/
def instr_swt (m : Machine) (selfId : Int) (args : List ASTNode) :
    PRes (Machine × Bool) := do
  let swt_operand ← pyIndex args 0
  let step1 : PRes (Machine × Option Int) ←
    match swt_operand with
    | .IntegerLiteral v => pure (.ok (m, some v))
    | .PortLiteral name => pure (get_value_from_port m selfId name)
    | _ => do
      match getSelf m selfId with
      | .ok self =>
        match pyIndex self.accs self.register_cursor with
        | .ok v => pure (.ok (m, some v))
        | .error e => pure (.error e)
      | .error e => pure (.error e)
  let (m, vOpt) ← step1
  let self ← getSelf m selfId
  match vOpt with
  | none => .error .typeError
  | some v =>
    if ¬ ((self.accs.length : Int) > v ∧ v ≥ 0) then .error .tisSyntaxError
    else .ok (mupdate m selfId fun n => { n with register_cursor := v }, true)

/-- `TISNode.instr_swp`. -/
def instr_swp (m : Machine) (selfId : Int) (_args : List ASTNode) :
    PRes (Machine × Bool) := do
  let self ← getSelf m selfId
  let a ← pyIndex self.accs self.register_cursor
  let b ← pyIndex self.baks self.register_cursor
  let accs' ← pySetIdx self.accs self.register_cursor b
  let baks' ← pySetIdx self.baks self.register_cursor a
  .ok (mupdate m selfId fun n => { n with accs := accs', baks := baks' }, true)

/-- `TISNode.instr_neg`. -/
def instr_neg (m : Machine) (selfId : Int) (_args : List ASTNode) :
    PRes (Machine × Bool) := do
  let self ← getSelf m selfId
  let cur ← pyIndex self.accs self.register_cursor
  let accs' ← pySetIdx self.accs self.register_cursor (cur * (-1))
  .ok (mupdate m selfId fun n => { n with accs := accs' }, true)

/-- `TISNode.instr_nop`. -/
def instr_nop (m : Machine) (_selfId : Int) (_args : List ASTNode) :
    PRes (Machine × Bool) :=
  .ok (m, true)

/-- `TISNode.instr_jmp`. -/
def instr_jmp (m : Machine) (selfId : Int) (args : List ASTNode) :
    PRes (Machine × Bool) := do
  let arg ← pyIndex args 0
  let name ← ast_name arg
  let self ← getSelf m selfId
  match dictFind self.label_table name with
  | none => .error .keyError
  | some inx =>
    .ok (mupdate m selfId fun n => { n with instruction_pointer := inx }, true)

/-- `TISNode.instr_jez`. -/
def instr_jez (m : Machine) (selfId : Int) (args : List ASTNode) :
    PRes (Machine × Bool) := do
  let self ← getSelf m selfId
  let cur ← pyIndex self.accs self.register_cursor
  if cur = 0 then do
    let arg ← pyIndex args 0
    instr_jmp m selfId [arg]
  else .ok (m, true)

/-- `TISNode.instr_jnz`. -/
def instr_jnz (m : Machine) (selfId : Int) (args : List ASTNode) :
    PRes (Machine × Bool) := do
  let self ← getSelf m selfId
  let cur ← pyIndex self.accs self.register_cursor
  if cur ≠ 0 then do
    let arg ← pyIndex args 0
    instr_jmp m selfId [arg]
  else .ok (m, true)

/-- `TISNode.instr_jgz`. -/
def instr_jgz (m : Machine) (selfId : Int) (args : List ASTNode) :
    PRes (Machine × Bool) := do
  let self ← getSelf m selfId
  let cur ← pyIndex self.accs self.register_cursor
  if cur > 0 then do
    let arg ← pyIndex args 0
    instr_jmp m selfId [arg]
  else .ok (m, true)

/-- `TISNode.instr_jlz`. -/
def instr_jlz (m : Machine) (selfId : Int) (args : List ASTNode) :
    PRes (Machine × Bool) := do
  let self ← getSelf m selfId
  let cur ← pyIndex self.accs self.register_cursor
  if cur < 0 then do
    let arg ← pyIndex args 0
    instr_jmp m selfId [arg]
  else .ok (m, true)

/-- `TISNode.instr_jro`. -/
def instr_jro (m : Machine) (selfId : Int) (args : List ASTNode) :
    PRes (Machine × Bool) := do
  let jro_operand ← pyIndex args 0
  let step1 : PRes (Machine × Option Int) ←
    match jro_operand with
    | .IntegerLiteral v => pure (.ok (m, some v))
    | .PortLiteral name => pure (get_value_from_port m selfId name)
    | _ => do
      match getSelf m selfId with
      | .ok self =>
        match pyIndex self.accs self.register_cursor with
        | .ok v => pure (.ok (m, some v))
        | .error e => pure (.error e)
      | .error e => pure (.error e)
  let (m, vOpt) ← step1
  match vOpt with
  | none => .ok (m, false)
  | some v => do
    let self ← getSelf m selfId
    match dictFindNat self.ast_real_instr_lookup self.instruction_pointer with
    | none => .error .keyError
    | some real => do
      let newIp ← pyIndex self.ast_instr_real_lookup ((real : Int) + v - 1)
      .ok (mupdate m selfId fun n => { n with instruction_pointer := newIp }, true)

/-- `TISNode.do_instr`: dynamic dispatch on `"instr_" + op`; a missing
handler raises `NotImplementedError`.  Non-instruction nodes have no `.op`
attribute. -/
def do_instr (m : Machine) (selfId : Int) (node : ASTNode) :
    PRes (Machine × Bool) :=
  match node with
  | .NArgumentInstruction op args =>
    if op = "mov" then instr_mov m selfId args
    else if op = "add" then instr_add m selfId args
    else if op = "sub" then instr_sub m selfId args
    else if op = "sav" then instr_sav m selfId args
    else if op = "swt" then instr_swt m selfId args
    else if op = "swp" then instr_swp m selfId args
    else if op = "neg" then instr_neg m selfId args
    else if op = "nop" then instr_nop m selfId args
    else if op = "jmp" then instr_jmp m selfId args
    else if op = "jez" then instr_jez m selfId args
    else if op = "jnz" then instr_jnz m selfId args
    else if op = "jgz" then instr_jgz m selfId args
    else if op = "jlz" then instr_jlz m selfId args
    else if op = "jro" then instr_jro m selfId args
    else .error .notImplementedError
  | _ => .error .attributeError

/-- `TISNode.incr_instr_pointer`. -/
def incr_instr_pointer (n : TISNode) : TISNode :=
  let ip := n.instruction_pointer + 1
  if ip = n.ast_len then { n with instruction_pointer := 0 }
  else { n with instruction_pointer := ip }

def incr_m (m : Machine) (selfId : Int) : Machine :=
  mupdate m selfId incr_instr_pointer

/-- `TISNode.step`.  The `Label` case re-runs the step logic within the same
tick by plain recursion, so it is fuel-bounded like the Python stack. -/
def step_fuel : Nat → Machine → Int → PRes Machine
  | 0, _, _ => .error .recursionError
  | fuel + 1, m, selfId => do
    let self ← getSelf m selfId
    let cur_node ←
      match self.ast.get? self.instruction_pointer with
      | some nd => pure nd
      | none => .error .indexError
    if self.wait_port.isSome then
      if self.sent_value.isSome then do
        let (m, done) ← do_instr m selfId cur_node
        if done then
          let m := mupdate m selfId fun n =>
            { n with wait_port := none, sent_value := none, state := .RUNNING }
          .ok (incr_m m selfId)
        else .ok m
      else .ok m
    else if self.port_value.isSome then do
      let (m, done) ← do_instr m selfId cur_node
      if done then
        let m := mupdate m selfId fun n =>
          { n with port_value := none, state := .RUNNING }
        .ok (incr_m m selfId)
      else .ok m
    else
      match cur_node with
      | .NArgumentInstruction _ _ => do
        let (m, done) ← do_instr m selfId cur_node
        if done then .ok (incr_m m selfId) else .ok m
      | .Label _ => step_fuel fuel (incr_m m selfId) selfId
      | _ => .error .executionError

/-- One `step` call on one node, as the driver makes it. -/
def step (m : Machine) (selfId : Int) : PRes Machine :=
  step_fuel python_recursion_limit m selfId

/-- One tick of the external driver (src/tis_machine.py): `step` every node
once, in the dict's insertion order. -/
def tick (m : Machine) : PRes Machine :=
  (m.map Prod.fst).foldlM (fun acc id => step acc id) m

/-- An arbitrary sequence of `step` calls, one per listed id. -/
def run (ids : List Int) (m : Machine) : PRes Machine :=
  ids.foldlM (fun acc id => step acc id) m

/- ===== Proof toolbox ===== -/

/-- A syntactically empty node, used as the fallback of extraction matches
(never reached on the concrete programs below, whose validation succeeds). -/
def defaultNode : TISNode :=
  { id := 0, ast := [], ast_instr_real_lookup := [], ast_real_instr_lookup := []
    ast_len := 0, instruction_pointer := 0
    up_id := none, down_id := none, left_id := none, right_id := none
    port_value := none, wait_port := none, sent_value := none, last_port := none
    accs := [], baks := [], register_cursor := 0, label_table := [], state := .RUNNING }

instance : Inhabited TISNode := ⟨defaultNode⟩

theorem pres_ok_bind {α β : Type} (a : α) (f : α → PRes β) :
    (Except.ok a >>= f : PRes β) = f a := rfl

theorem mlookup_mupdate (m : Machine) (id i : Int) (f : TISNode → TISNode) :
    mlookup (mupdate m id f) i = if i = id then (mlookup m i).map f else mlookup m i := by
  induction m with
  | nil => simp [mlookup, mupdate]
  | cons p rest ih =>
    obtain ⟨k, n⟩ := p
    by_cases hk : k = id
    · subst hk
      by_cases hi : k = i
      · subst hi
        simp [mlookup, mupdate]
      · simp [mlookup, mupdate, hi, Ne.symm hi, ih]
    · by_cases hi : k = i
      · subst hi
        simp [mlookup, mupdate, hk, Ne.symm hk]
      · simp [mlookup, mupdate, hk, hi, ih]

theorem mlookup_mupdate_self {m : Machine} {id : Int} {n : TISNode}
    (f : TISNode → TISNode) (h : mlookup m id = some n) :
    mlookup (mupdate m id f) id = some (f n) := by
  simp [mlookup_mupdate, h]

theorem mlookup_mupdate_ne {m : Machine} {id i : Int}
    (f : TISNode → TISNode) (h : i ≠ id) :
    mlookup (mupdate m id f) i = mlookup m i := by
  simp [mlookup_mupdate, h]

theorem getSelf_ok {m : Machine} {id : Int} {n : TISNode}
    (h : mlookup m id = some n) : getSelf m id = .ok n := by
  simp [getSelf, h]

theorem pyIndex_ok_of {α : Type} {l : List α} {i : Int} {v : α}
    (h0 : 0 ≤ i) (hv : l.get? i.toNat = some v) : pyIndex l i = .ok v := by
  have hneg : ¬ i < 0 := not_lt.2 h0
  have hv' : l[i.toNat]? = some v := by simpa using hv
  simp [pyIndex, hneg, hv']

theorem pySetIdx_ok_of {α : Type} {l : List α} {i : Int} {v : α}
    (h0 : 0 ≤ i) (hl : i.toNat < l.length) :
    pySetIdx l i v = .ok (l.set i.toNat v) := by
  have hneg : ¬ i < 0 := not_lt.2 h0
  simp [pySetIdx, hneg, hl]

theorem pyIndex_zero_cons {α : Type} (a : α) (l : List α) :
    pyIndex (a :: l) 0 = .ok a := rfl

theorem pyIndex_one_cons {α : Type} (a b : α) (l : List α) :
    pyIndex (a :: b :: l) 1 = .ok b := rfl

/- ===== Claim C10 ===== -/

/-- Claim C10: a `step` call on a node that is parked receiving
(`wait_port` set) while nothing has been delivered (`sent_value = None`)
returns without modifying anything: the whole machine, and in particular
that node's accs, baks, register cursor, instruction pointer, wait_port,
port_value, sent_value and last_port, are left exactly as they were. -/
theorem C10_blocked_receiving_tick_is_noop
    (m : Machine) (selfId : Int) (self : TISNode)
    (hl : mlookup m selfId = some self)
    (hip : self.instruction_pointer < self.ast.length)
    (hw : self.wait_port.isSome)
    (hs : self.sent_value = none) :
    step m selfId = .ok m := by
  have hne : self.ast.get? self.instruction_pointer ≠ none := by
    rw [ne_eq, List.get?_eq_none]
    omega
  obtain ⟨cur, hcur⟩ := Option.ne_none_iff_exists'.1 hne
  have hcur' : self.ast[self.instruction_pointer]? = some cur := by simpa using hcur
  have key : ∀ fuel : Nat, step_fuel (fuel + 1) m selfId = .ok m := by
    intro fuel
    simp [step_fuel, getSelf_ok hl, pres_ok_bind, hcur', hw, hs]
  rw [step, show python_recursion_limit = 999 + 1 from rfl]
  exact key 999

/-- Witness for C10 at a concrete parked node. -/
def c10_node : TISNode :=
  { defaultNode with
    ast := [.NArgumentInstruction "mov" [.PortLiteral "UP", .RegisterLiteral "ACC"]]
    ast_instr_real_lookup := [0], ast_real_instr_lookup := [(0, 0)], ast_len := 1
    accs := List.replicate 8 0, baks := List.replicate 8 0
    wait_port := some "UP", state := .WILL_BE_RUNNING }

theorem C10_blocked_receiving_tick_is_noop_witness :
    step [((0 : Int), c10_node)] 0 = .ok [((0 : Int), c10_node)] :=
  C10_blocked_receiving_tick_is_noop [((0 : Int), c10_node)] 0 c10_node
    (by rfl) (by simp [c10_node, defaultNode]) (by rfl) (by rfl)

/- ===== Claim C7 ===== -/

/-- Claim C7: for every starting value `v` of the current accumulator,
`add acc` (a register operand) sets the current acc to `v * 2` — doubling —
and `sub acc` sets the current acc to `0`, regardless of `v`.  Both complete
immediately and leave the register cursor where it was. -/
theorem C7_add_acc_doubles_sub_acc_zeroes
    (m : Machine) (selfId : Int) (self : TISNode) (r : String) (v : Int)
    (hl : mlookup m selfId = some self)
    (h0 : 0 ≤ self.register_cursor)
    (hv : self.accs.get? self.register_cursor.toNat = some v) :
    (instr_add m selfId [.RegisterLiteral r] =
      .ok (mupdate m selfId fun n =>
        { n with accs := self.accs.set self.register_cursor.toNat (v * 2) }, true)) ∧
    (instr_sub m selfId [.RegisterLiteral r] =
      .ok (mupdate m selfId fun n =>
        { n with accs := self.accs.set self.register_cursor.toNat 0 }, true)) ∧
    ((self.accs.set self.register_cursor.toNat (v * 2)).get?
        self.register_cursor.toNat = some (v * 2)) ∧
    ((self.accs.set self.register_cursor.toNat 0).get?
        self.register_cursor.toNat = some 0) := by
  have hlen : self.register_cursor.toNat < self.accs.length :=
    List.get?_eq_some.1 hv |>.choose
  refine ⟨?_, ?_, ?_, ?_⟩
  · simp [instr_add, getSelf_ok hl, pres_ok_bind, pyIndex_zero_cons,
      pyIndex_ok_of h0 hv, pySetIdx_ok_of h0 hlen]
  · simp [instr_sub, getSelf_ok hl, pres_ok_bind, pyIndex_zero_cons,
      pyIndex_ok_of h0 hv, pySetIdx_ok_of h0 hlen]
  · simp [List.getElem?_set_eq_of_lt _ hlen]
  · simp [List.getElem?_set_eq_of_lt _ hlen]

theorem pres_error_bind {α β : Type} (e : PyErr) (f : α → PRes β) :
    (Except.error e >>= f : PRes β) = .error e := rfl

/- ===== Claim C9 ===== -/

def c9_ast : List ASTNode :=
  [.NArgumentInstruction "mov" [.PortLiteral "LAST", .RegisterLiteral "ACC"]]

def c9_node : TISNode :=
  match mkNode 0 1 1 c9_ast with
  | .ok n => n
  | .error _ => defaultNode

def c9_m : Machine := [((0 : Int), c9_node)]

set_option maxHeartbeats 1000000 in
theorem c9_single_step : step c9_m 0 = .ok c9_m := rfl

/-- Claim C9: with `mov last, acc` as a node's first-ever instruction, no
prior transfer has established a `LAST` port, so the node blocks forever:
for every `n` (in particular `n = 1000`), after `n` `step` calls (in this
single-node grid nothing can ever be delivered) the machine — hence the
node's instruction pointer (still `0`, parked on that instruction) and its
accumulators (still all `0`) — is completely unchanged. -/
theorem C9_mov_last_first_instruction_blocks_forever :
    mkNode 0 1 1 c9_ast = .ok c9_node ∧
    c9_node.instruction_pointer = 0 ∧
    c9_node.accs = List.replicate 8 0 ∧
    c9_node.wait_port = none ∧
    (∀ n : Nat, run (List.replicate n 0) c9_m = .ok c9_m) := by
  refine ⟨rfl, rfl, rfl, rfl, ?_⟩
  intro n
  induction n with
  | zero => rfl
  | succ k ih =>
    simp only [run, List.replicate_succ, List.foldlM_cons] at ih ⊢
    rw [c9_single_step, pres_ok_bind]
    exact ih

/- ===== Claim C4 ===== -/

def c4_ast : List ASTNode := [.NArgumentInstruction "swt" [.PortLiteral "UP"]]

def c4_node : TISNode :=
  match mkNode 0 1 1 c4_ast with
  | .ok n => n
  | .error _ => defaultNode

set_option maxHeartbeats 1000000 in
/-- Claim C4 (failing part, code bug): the program `swt up` validates and
constructs, but executing it while the port value has not arrived does not
park the node — `instr_swt` checks the AST node `swt_operand` instead of
the fetched `swt_operand_value`, falls through to the range check with the
value still `None`, and the chained comparison raises `TypeError`. -/
theorem C4_swt_blocked_port_raises_TypeError :
    mkNode 0 1 1 c4_ast = .ok c4_node ∧
    step [((0 : Int), c4_node)] 0 = .error .typeError := ⟨rfl, rfl⟩

/- ===== Claim C3 ===== -/

def c3_ast : List ASTNode := [.Label "lab"]

def c3_node : TISNode :=
  match mkNode 0 1 1 c3_ast with
  | .ok n => n
  | .error _ => defaultNode

def c3_m : Machine := [((0 : Int), c3_node)]

set_option maxHeartbeats 1000000 in
theorem c3_step_fuel_succ (k : Nat) : step_fuel (k + 1) c3_m 0 = step_fuel k c3_m 0 := rfl

/-- Claim C3 (failing part, code bug): a program consisting solely of labels
passes validation and constructs, but `step` has no guard for it: the
`Label` branch increments the (wrapping) instruction pointer and recurses
with an identical machine state, so no recursion depth suffices — the
Python call overflows the stack (`RecursionError`) instead of treating the
tick as a no-op. -/
theorem C3_label_only_program_recurses_unboundedly :
    mkNode 0 1 1 c3_ast = .ok c3_node ∧
    (∀ fuel : Nat, step_fuel fuel c3_m 0 = .error .recursionError) ∧
    step c3_m 0 = .error .recursionError := by
  have key : ∀ fuel : Nat, step_fuel fuel c3_m 0 = .error .recursionError := by
    intro fuel
    induction fuel with
    | zero => rfl
    | succ k ih => rw [c3_step_fuel_succ, ih]
  exact ⟨rfl, key, key python_recursion_limit⟩

/- ===== Claim C6 ===== -/

set_option maxRecDepth 4000 in
/-- Claim C6: executing `swt n` with an integer operand `n` outside `[0,8)`
raises `TISSyntaxError` at the tick it executes (the error aborts the tick,
so no state with a clamped or changed cursor is ever produced), both at the
instruction level and through `step`; with `n` inside `[0,8)` it sets the
register cursor to `n`, and each register-sensitive instruction —
`add`/`sub`/`sav`/`swp`/`neg` with their immediate forms and `mov`
writing `acc` — then reads and writes only the pair selected by the cursor
and leaves the cursor itself unchanged (so pair `n` stays active until the
next `swt`). -/
theorem C6_swt_range_error_and_cursor_selects_pair
    (m : Machine) (selfId : Int) (self : TISNode) (k : Int)
    (hl : mlookup m selfId = some self)
    (hacc : self.accs.length = 8) :
    (¬ (0 ≤ k ∧ k < 8) →
      instr_swt m selfId [.IntegerLiteral k] = .error .tisSyntaxError) ∧
    (¬ (0 ≤ k ∧ k < 8) →
      self.ast.get? self.instruction_pointer =
        some (.NArgumentInstruction "swt" [.IntegerLiteral k]) →
      self.wait_port = none → self.port_value = none →
      step m selfId = .error .tisSyntaxError) ∧
    ((0 ≤ k ∧ k < 8) →
      instr_swt m selfId [.IntegerLiteral k] =
        .ok (mupdate m selfId fun n => { n with register_cursor := k }, true)) ∧
    (self.register_cursor = k → (0 ≤ k ∧ k < 8) → self.baks.length = 8 →
      (∀ x v, self.accs.get? k.toNat = some v →
        instr_add m selfId [.IntegerLiteral x] =
          .ok (mupdate m selfId fun n =>
            { n with accs := self.accs.set k.toNat (v + x) }, true) ∧
        instr_sub m selfId [.IntegerLiteral x] =
          .ok (mupdate m selfId fun n =>
            { n with accs := self.accs.set k.toNat (v - x) }, true)) ∧
      (∀ v, self.accs.get? k.toNat = some v →
        instr_sav m selfId [] =
          .ok (mupdate m selfId fun n =>
            { n with baks := self.baks.set k.toNat v }, true)) ∧
      (∀ v w, self.accs.get? k.toNat = some v → self.baks.get? k.toNat = some w →
        instr_swp m selfId [] =
          .ok (mupdate m selfId fun n =>
            { n with accs := self.accs.set k.toNat w,
                     baks := self.baks.set k.toNat v }, true)) ∧
      (∀ v, self.accs.get? k.toNat = some v →
        instr_neg m selfId [] =
          .ok (mupdate m selfId fun n =>
            { n with accs := self.accs.set k.toNat (v * (-1)) }, true)) ∧
      (∀ x, instr_mov m selfId [.IntegerLiteral x, .RegisterLiteral "ACC"] =
        .ok (mupdate m selfId fun n =>
          { n with accs := self.accs.set k.toNat x }, true))) := by
  have hswt : ∀ hr : ¬ (0 ≤ k ∧ k < 8),
      instr_swt m selfId [.IntegerLiteral k] = .error .tisSyntaxError := by
    intro hr
    have hcond : ¬ ((self.accs.length : Int) > k ∧ k ≥ 0) := by
      rw [hacc]
      omega
    simp [instr_swt, getSelf_ok hl, pres_ok_bind, pyIndex_zero_cons, hcond]
  refine ⟨hswt, ?_, ?_, ?_⟩
  · intro hr hstmt hw hp
    have hcur' : self.ast[self.instruction_pointer]? =
        some (.NArgumentInstruction "swt" [.IntegerLiteral k]) := by
      simpa using hstmt
    have hw' : self.wait_port.isSome = false := by simp [hw]
    have hp' : self.port_value.isSome = false := by simp [hp]
    have key : ∀ fuel : Nat, step_fuel (fuel + 1) m selfId = .error .tisSyntaxError := by
      intro fuel
      simp [step_fuel, getSelf_ok hl, pres_ok_bind, hcur', hw', hp', do_instr,
        hswt hr, pres_error_bind]
    rw [step, show python_recursion_limit = 999 + 1 from rfl]
    exact key 999
  · intro hr
    have hcond : ((self.accs.length : Int) > k ∧ k ≥ 0) := by
      rw [hacc]
      omega
    simp [instr_swt, getSelf_ok hl, pres_ok_bind, pyIndex_zero_cons, hcond]
  · intro hcur hr hbak
    have h0 : 0 ≤ self.register_cursor := by omega
    have hlen : self.register_cursor.toNat < self.accs.length := by
      rw [hacc]
      omega
    have hlenb : self.register_cursor.toNat < self.baks.length := by
      rw [hbak]
      omega
    subst hcur
    refine ⟨?_, ?_, ?_, ?_, ?_⟩
    · intro x v hv
      constructor
      · simp [instr_add, getSelf_ok hl, pres_ok_bind, pyIndex_zero_cons,
          pyIndex_ok_of h0 hv, pySetIdx_ok_of h0 hlen]
      · simp [instr_sub, getSelf_ok hl, pres_ok_bind, pyIndex_zero_cons,
          pyIndex_ok_of h0 hv, pySetIdx_ok_of h0 hlen]
    · intro v hv
      simp [instr_sav, getSelf_ok hl, pres_ok_bind, pyIndex_ok_of h0 hv,
        pySetIdx_ok_of h0 hlenb]
    · intro v w hv hw
      simp [instr_swp, getSelf_ok hl, pres_ok_bind, pyIndex_ok_of h0 hv,
        pyIndex_ok_of h0 hw, pySetIdx_ok_of h0 hlen, pySetIdx_ok_of h0 hlenb]
    · intro v hv
      simp [instr_neg, getSelf_ok hl, pres_ok_bind, pyIndex_ok_of h0 hv,
        pySetIdx_ok_of h0 hlen]
    · intro x
      simp [instr_mov, getSelf_ok hl, pres_ok_bind, pyIndex_zero_cons,
        pyIndex_one_cons, pySetIdx_ok_of h0 hlen]

def c6_node : TISNode :=
  { defaultNode with
    ast := [.NArgumentInstruction "swt" [.IntegerLiteral 9]]
    ast_instr_real_lookup := [0], ast_real_instr_lookup := [(0, 0)], ast_len := 1
    accs := List.replicate 8 0, baks := List.replicate 8 0 }

/-- Witness for C6 at a concrete machine: `swt 9` errors (also through
`step`), `swt 5` sets the cursor to 5. -/
theorem C6_swt_range_error_and_cursor_selects_pair_witness :
    (instr_swt [((0 : Int), c6_node)] 0 [.IntegerLiteral 9] = .error .tisSyntaxError) ∧
    (step [((0 : Int), c6_node)] 0 = .error .tisSyntaxError) ∧
    (instr_swt [((0 : Int), c6_node)] 0 [.IntegerLiteral 5] =
      .ok (mupdate [((0 : Int), c6_node)] 0 fun n =>
        { n with register_cursor := 5 }, true)) := by
  have h9 := C6_swt_range_error_and_cursor_selects_pair
    [((0 : Int), c6_node)] 0 c6_node 9 rfl rfl
  have h5 := C6_swt_range_error_and_cursor_selects_pair
    [((0 : Int), c6_node)] 0 c6_node 5 rfl rfl
  exact ⟨h9.1 (by omega), h9.2.1 (by omega) rfl rfl rfl, h5.2.2.1 (by omega)⟩

/- ===== Witness for Claim C7 ===== -/

def c7_node : TISNode :=
  { defaultNode with accs := 3 :: List.replicate 7 0, baks := List.replicate 8 0 }

/-- Witness for C7 at `v = 3`: `add acc` yields 6, `sub acc` yields 0. -/
theorem C7_add_acc_doubles_sub_acc_zeroes_witness :
    instr_add [((0 : Int), c7_node)] 0 [.RegisterLiteral "ACC"] =
      .ok (mupdate [((0 : Int), c7_node)] 0 fun n =>
        { n with accs := c7_node.accs.set c7_node.register_cursor.toNat (3 * 2) }, true) ∧
    instr_sub [((0 : Int), c7_node)] 0 [.RegisterLiteral "ACC"] =
      .ok (mupdate [((0 : Int), c7_node)] 0 fun n =>
        { n with accs := c7_node.accs.set c7_node.register_cursor.toNat 0 }, true) :=
  have h := C7_add_acc_doubles_sub_acc_zeroes [((0 : Int), c7_node)] 0 c7_node "ACC" 3
    rfl (by decide) rfl
  ⟨h.1, h.2.1⟩

/- ===== Claim C1 ===== -/

/-- Node 0's program exactly as the spec's scenario writes it, with the
two-operand `add 3, acc`. -/
def c1_ast0_spec : List ASTNode :=
  [ .NArgumentInstruction "mov" [.IntegerLiteral 5, .RegisterLiteral "ACC"],
    .NArgumentInstruction "add" [.IntegerLiteral 3, .RegisterLiteral "ACC"],
    .NArgumentInstruction "mov" [.RegisterLiteral "ACC", .PortLiteral "DOWN"] ]

/-- Node 0's program with the arity-correct single-operand `add 3`. -/
def c1_ast0 : List ASTNode :=
  [ .NArgumentInstruction "mov" [.IntegerLiteral 5, .RegisterLiteral "ACC"],
    .NArgumentInstruction "add" [.IntegerLiteral 3],
    .NArgumentInstruction "mov" [.RegisterLiteral "ACC", .PortLiteral "DOWN"] ]

/-- Node 5's program `mov up, acc`. -/
def c1_ast5 : List ASTNode :=
  [ .NArgumentInstruction "mov" [.PortLiteral "UP", .RegisterLiteral "ACC"] ]

def c1_node0 : TISNode :=
  { id := 0, ast := c1_ast0
    ast_instr_real_lookup := [0, 1, 2]
    ast_real_instr_lookup := [(0, 0), (1, 1), (2, 2)]
    ast_len := 3, instruction_pointer := 0
    up_id := none, down_id := some 5, left_id := none, right_id := some 1
    port_value := none, wait_port := none, sent_value := none, last_port := none
    accs := List.replicate 8 0, baks := List.replicate 8 0
    register_cursor := 0, label_table := [], state := .RUNNING }

def c1_node5 : TISNode :=
  { id := 5, ast := c1_ast5
    ast_instr_real_lookup := [0]
    ast_real_instr_lookup := [(0, 0)]
    ast_len := 1, instruction_pointer := 0
    up_id := some 0, down_id := none, left_id := none, right_id := some 6
    port_value := none, wait_port := none, sent_value := none, last_port := none
    accs := List.replicate 8 0, baks := List.replicate 8 0
    register_cursor := 0, label_table := [], state := .RUNNING }

/-- The two-node machine, in the driver's insertion (textual) order. -/
def c1_m0 : Machine := [((0 : Int), c1_node0), ((5 : Int), c1_node5)]

/-- The machine after `k` full driver ticks. -/
def c1_ticks : Nat → PRes Machine
  | 0 => .ok c1_m0
  | k + 1 => (c1_ticks k) >>= tick

def c1_s2 : Machine :=
  [(0, { c1_node0 with instruction_pointer := 2, accs := [8, 0, 0, 0, 0, 0, 0, 0] }),
   (5, { c1_node5 with wait_port := some "UP", state := .WILL_BE_RUNNING })]

def c1_s3 : Machine :=
  [(0, { c1_node0 with accs := [8, 0, 0, 0, 0, 0, 0, 0], state := .WILL_BE_RUNNING }),
   (5, { c1_node5 with last_port := some "UP", accs := [8, 0, 0, 0, 0, 0, 0, 0] })]

def c1_node5_parked : TISNode :=
  { c1_node5 with
      wait_port := some "UP"
      last_port := some "UP"
      accs := [8, 0, 0, 0, 0, 0, 0, 0]
      state := .WILL_BE_RUNNING }

def c1_s4 : Machine :=
  [(0, { c1_node0 with
           instruction_pointer := 1
           accs := [5, 0, 0, 0, 0, 0, 0, 0]
           state := .WILL_BE_RUNNING }),
   (5, c1_node5_parked)]

def c1_s5 : Machine :=
  [(0, { c1_node0 with
           instruction_pointer := 2
           accs := [8, 0, 0, 0, 0, 0, 0, 0]
           state := .WILL_BE_RUNNING }),
   (5, c1_node5_parked)]

set_option maxHeartbeats 2000000 in
theorem c1_ticks_two : c1_ticks 2 = .ok c1_s2 := rfl

set_option maxHeartbeats 2000000 in
theorem c1_tick_s2 : tick c1_s2 = .ok c1_s3 := rfl

theorem c1_ticks_three : c1_ticks 3 = .ok c1_s3 := by
  have e : c1_ticks 3 = c1_ticks 2 >>= tick := rfl
  rw [e, c1_ticks_two, pres_ok_bind, c1_tick_s2]

set_option maxHeartbeats 2000000 in
theorem c1_tick_s3 : tick c1_s3 = .ok c1_s4 := rfl

set_option maxHeartbeats 2000000 in
theorem c1_tick_s4 : tick c1_s4 = .ok c1_s5 := rfl

set_option maxHeartbeats 2000000 in
theorem c1_tick_s5 : tick c1_s5 = .ok c1_s3 := rfl

/-- From tick 3 on, the run is periodic with period 3. -/
theorem c1_periodic : ∀ j : Nat, c1_ticks (3 + 3 * j) = .ok c1_s3 := by
  have step3 : ∀ n : Nat, c1_ticks n = .ok c1_s3 → c1_ticks (n + 3) = .ok c1_s3 := by
    intro n h
    have e : c1_ticks (n + 3) = ((c1_ticks n >>= tick) >>= tick) >>= tick := rfl
    rw [e, h, pres_ok_bind, c1_tick_s3, pres_ok_bind, c1_tick_s4, pres_ok_bind,
      c1_tick_s5]
  intro j
  induction j with
  | zero => exact c1_ticks_three
  | succ i ih =>
    have h := step3 _ ih
    have e : 3 + 3 * (i + 1) = (3 + 3 * i) + 3 := by ring
    rw [e]
    exact h

/-- The externally observable part of a node's mutable state. -/
def nodeObs (m : Machine) (id : Int) :
    Option (Nat × Option String × Option (String × Int) × Option (String × Int) × List Int) :=
  (mlookup m id).map fun n =>
    (n.instruction_pointer, n.wait_port, n.sent_value, n.port_value, n.accs)

def c1_obsAt (k : Nat) (id : Int) :
    Option (Nat × Option String × Option (String × Int) × Option (String × Int) × List Int) :=
  match c1_ticks k with
  | .ok m => nodeObs m id
  | .error _ => none

theorem c1_obs_s3_node0 : nodeObs c1_s3 0 =
    some (0, none, none, none, [8, 0, 0, 0, 0, 0, 0, 0]) := rfl

theorem c1_obs_s4_node0 : nodeObs c1_s4 0 =
    some (1, none, none, none, [5, 0, 0, 0, 0, 0, 0, 0]) := rfl

theorem c1_obs_s3_node5 : nodeObs c1_s3 5 =
    some (0, none, none, none, [8, 0, 0, 0, 0, 0, 0, 0]) := rfl

theorem c1_obs_s4_node5 : nodeObs c1_s4 5 =
    some (0, some "UP", none, none, [8, 0, 0, 0, 0, 0, 0, 0]) := rfl

/-- A node blocks forever when from some tick on its observable state never
changes again. -/
def c1_blocksForever (id : Int) : Prop :=
  ∃ N : Nat, ∀ k : Nat, N ≤ k → c1_obsAt (k + 1) id = c1_obsAt k id

theorem c1_obs_change (N : Nat) (id : Int)
    (hne : nodeObs c1_s4 id ≠ nodeObs c1_s3 id) :
    ¬ (∀ k : Nat, N ≤ k → c1_obsAt (k + 1) id = c1_obsAt k id) := by
  intro h
  have hk : N ≤ 3 + 3 * N := by omega
  have h1 : c1_ticks ((3 + 3 * N) + 1) = .ok c1_s4 := by
    have e : c1_ticks ((3 + 3 * N) + 1) = c1_ticks (3 + 3 * N) >>= tick := rfl
    rw [e, c1_periodic N, pres_ok_bind, c1_tick_s3]
  have h2 := h (3 + 3 * N) hk
  rw [show c1_obsAt ((3 + 3 * N) + 1) id = nodeObs c1_s4 id from by
        rw [c1_obsAt, h1],
      show c1_obsAt (3 + 3 * N) id = nodeObs c1_s3 id from by
        rw [c1_obsAt, c1_periodic N]] at h2
  exact hne h2

/-- Claim C1 (amended program: `add 3` for the invalid `add 3, acc`): on a
width-5 grid, node 0 finishes its first two instructions in 2 ticks with
`acc = 8`; on tick 3 its third instruction's port send synchronizes with
node 5's `mov up, acc` — node 5's acc becomes 8, its receive completes
(`wait_port`/`sent_value` cleared, `last_port = UP`) and node 0 wraps to its
first instruction with the handshake consumed; and neither node blocks
forever (each keeps changing observable state at every later tick). -/
theorem C1_two_node_scenario_with_corrected_add :
    mkNode 0 2 5 c1_ast0 = .ok c1_node0 ∧
    mkNode 5 2 5 c1_ast5 = .ok c1_node5 ∧
    (∃ m2, c1_ticks 2 = .ok m2 ∧ ∃ n0, mlookup m2 0 = some n0 ∧
      n0.instruction_pointer = 2 ∧ n0.accs.get? 0 = some 8) ∧
    (∃ m3, c1_ticks 3 = .ok m3 ∧ ∃ n0 n5, mlookup m3 0 = some n0 ∧
      mlookup m3 5 = some n5 ∧
      n5.accs.get? 0 = some 8 ∧ n5.last_port = some "UP" ∧
      n5.wait_port = none ∧ n5.sent_value = none ∧
      n0.instruction_pointer = 0 ∧ n0.port_value = none) ∧
    ¬ c1_blocksForever 0 ∧ ¬ c1_blocksForever 5 := by
  refine ⟨rfl, rfl, ⟨c1_s2, c1_ticks_two, ?_⟩, ⟨c1_s3, c1_ticks_three, ?_⟩, ?_, ?_⟩
  · exact ⟨_, rfl, rfl, rfl⟩
  · exact ⟨_, _, rfl, rfl, rfl, rfl, rfl, rfl, rfl, rfl⟩
  · rintro ⟨N, h⟩
    refine c1_obs_change N 0 ?_ h
    rw [c1_obs_s4_node0, c1_obs_s3_node0]
    simp
  · rintro ⟨N, h⟩
    refine c1_obs_change N 5 ?_ h
    rw [c1_obs_s4_node5, c1_obs_s3_node5]
    simp

/-- Counterexample to C1 as stated: node 0's program as written in the
spec's scenario uses `add 3, acc`, whose arity fails validation (`add`
requires exactly 1 operand), so the node raises `TISSyntaxError` at
construction and never completes any instruction. -/
theorem C1_spec_program_fails_validation :
    mkNode 0 2 5 c1_ast0_spec = .error .tisSyntaxError := rfl

/- ===== Claim C8 ===== -/

/-- The UP neighbor (id 1) of sender 6 on a 5-wide, 3-high grid, parked
receiving on `w`. -/
def c8_node1 (w : Option String) : TISNode :=
  { id := 1, ast := [.NArgumentInstruction "mov" [.PortLiteral "DOWN", .RegisterLiteral "ACC"]]
    ast_instr_real_lookup := [0], ast_real_instr_lookup := [(0, 0)]
    ast_len := 1, instruction_pointer := 0
    up_id := none, down_id := some 6, left_id := some 0, right_id := some 2
    port_value := none, wait_port := w, sent_value := none, last_port := none
    accs := List.replicate 8 0, baks := List.replicate 8 0
    register_cursor := 0, label_table := [], state := .WILL_BE_RUNNING }

/-- The LEFT neighbor (id 5) of sender 6, parked receiving on `w`. -/
def c8_node5 (w : Option String) : TISNode :=
  { id := 5, ast := [.NArgumentInstruction "mov" [.PortLiteral "RIGHT", .RegisterLiteral "ACC"]]
    ast_instr_real_lookup := [0], ast_real_instr_lookup := [(0, 0)]
    ast_len := 1, instruction_pointer := 0
    up_id := some 0, down_id := some 10, left_id := none, right_id := some 6
    port_value := none, wait_port := w, sent_value := none, last_port := none
    accs := List.replicate 8 0, baks := List.replicate 8 0
    register_cursor := 0, label_table := [], state := .WILL_BE_RUNNING }

/-- The sending node (id 6), whose program is `mov acc, any`. -/
def c8_node6 : TISNode :=
  { id := 6, ast := [.NArgumentInstruction "mov" [.RegisterLiteral "ACC", .PortLiteral "ANY"]]
    ast_instr_real_lookup := [0], ast_real_instr_lookup := [(0, 0)]
    ast_len := 1, instruction_pointer := 0
    up_id := some 1, down_id := some 11, left_id := some 5, right_id := some 7
    port_value := none, wait_port := none, sent_value := none, last_port := none
    accs := List.replicate 8 0, baks := List.replicate 8 0
    register_cursor := 0, label_table := [], state := .RUNNING }

def c8_m (w1 w5 : Option String) : Machine :=
  [((1 : Int), c8_node1 w1), ((5 : Int), c8_node5 w5), ((6 : Int), c8_node6)]

/-- Claim C8: a send to `ANY` tries the sender's neighbors in the fixed
order UP, LEFT, RIGHT, DOWN and succeeds on the first that accepts.  When
the UP and LEFT neighbors both exist and are parked receiving from the
mirrored direction (or from `ANY`), the value is delivered to the UP
neighbor (`sent_value = (DOWN, v)` there) and never to LEFT; when no
neighbor accepts, the send returns `False` this tick and delivers
nothing. -/
theorem C8_any_send_priority_up_before_left
    (v : Int) (w1 w5 : Option String)
    (h1 : w1 = some "DOWN" ∨ w1 = some "ANY")
    (h5 : w5 = some "RIGHT" ∨ w5 = some "ANY") :
    (∃ m', set_value_to_port (c8_m w1 w5) 6 "ANY" v = .ok (m', true) ∧
      (∃ n1, mlookup m' 1 = some n1 ∧ n1.sent_value = some ("DOWN", v)) ∧
      (∃ n5, mlookup m' 5 = some n5 ∧ n5.sent_value = none) ∧
      (∃ n6, mlookup m' 6 = some n6 ∧ n6.port_value = some ("UP", v))) ∧
    (∃ m'', set_value_to_port (c8_m none none) 6 "ANY" v = .ok (m'', false) ∧
      (∃ n1, mlookup m'' 1 = some n1 ∧ n1.sent_value = none) ∧
      (∃ n5, mlookup m'' 5 = some n5 ∧ n5.sent_value = none)) := by
  constructor
  · rcases h1 with h1 | h1 <;> rcases h5 with h5 | h5 <;> subst h1 <;> subst h5 <;>
      exact ⟨_, rfl, ⟨_, rfl, rfl⟩, ⟨_, rfl, rfl⟩, ⟨_, rfl, rfl⟩⟩
  · exact ⟨_, rfl, ⟨_, rfl, rfl⟩, ⟨_, rfl, rfl⟩⟩

/-- Witness for C8 at `v = 7` with both neighbors parked on the mirrored
concrete directions. -/
theorem C8_any_send_priority_up_before_left_witness :
    ∃ m', set_value_to_port (c8_m (some "DOWN") (some "RIGHT")) 6 "ANY" 7 =
        .ok (m', true) ∧
      (∃ n1, mlookup m' 1 = some n1 ∧ n1.sent_value = some ("DOWN", 7)) ∧
      (∃ n5, mlookup m' 5 = some n5 ∧ n5.sent_value = none) ∧
      (∃ n6, mlookup m' 6 = some n6 ∧ n6.port_value = some ("UP", 7)) :=
  (C8_any_send_priority_up_before_left 7 (some "DOWN") (some "RIGHT")
    (Or.inl rfl) (Or.inl rfl)).1

/- ===== Claim C2: counterexample trace ===== -/

/-- Node 0's program for the counterexample: `mov 5, down` then `add up`. -/
def c2_ast0 : List ASTNode :=
  [ .NArgumentInstruction "mov" [.IntegerLiteral 5, .PortLiteral "DOWN"],
    .NArgumentInstruction "add" [.PortLiteral "UP"] ]

def c2_node0 : TISNode :=
  { id := 0, ast := c2_ast0
    ast_instr_real_lookup := [0, 1], ast_real_instr_lookup := [(0, 0), (1, 1)]
    ast_len := 2, instruction_pointer := 0
    up_id := none, down_id := some 5, left_id := none, right_id := some 1
    port_value := none, wait_port := none, sent_value := none, last_port := none
    accs := List.replicate 8 0, baks := List.replicate 8 0
    register_cursor := 0, label_table := [], state := .RUNNING }

def c2_node5 : TISNode :=
  { id := 5, ast := c1_ast5
    ast_instr_real_lookup := [0], ast_real_instr_lookup := [(0, 0)]
    ast_len := 1, instruction_pointer := 0
    up_id := some 0, down_id := none, left_id := none, right_id := some 6
    port_value := none, wait_port := none, sent_value := none, last_port := none
    accs := List.replicate 8 0, baks := List.replicate 8 0
    register_cursor := 0, label_table := [], state := .RUNNING }

def c2_m0 : Machine := [((0 : Int), c2_node0), ((5 : Int), c2_node5)]

set_option maxHeartbeats 2000000 in
/-- Counterexample to C2 as stated: on a freshly constructed two-node grid
(validated programs, grid width 5), after the step sequence node 5, node 0,
node 0 again, node 0 is simultaneously parked receiving (`wait_port = UP`,
set by `add up`) and still holds its undelivered-looking `port_value =
(DOWN, 5)` from the `mov 5, down` send that completed but has not yet been
consumed by node 5 — both fields are set at once. -/
theorem C2_counterexample_both_set :
    mkNode 0 2 5 c2_ast0 = .ok c2_node0 ∧
    mkNode 5 2 5 c1_ast5 = .ok c2_node5 ∧
    ∃ m, run [5, 0, 0] c2_m0 = .ok m ∧
      ∃ n0, mlookup m 0 = some n0 ∧
        n0.wait_port = some "UP" ∧ n0.port_value = some ("DOWN", 5) :=
  ⟨rfl, rfl, _, rfl, _, rfl, rfl, rfl⟩

/- ===== Claim C2: the invariant that does hold ===== -/

/-- The statement a node's instruction pointer currently selects. -/
def currentStatement (n : TISNode) : Option ASTNode :=
  n.ast.get? n.instruction_pointer

/-- An instruction whose first operand is read from a port (`mov` with a
port source, or `add`/`sub`/`swt`/`jro` with a port operand): the only
statements that can set `wait_port`. -/
def readsPortInstr (nd : ASTNode) : Prop :=
  ∃ op p rest, nd = .NArgumentInstruction op (.PortLiteral p :: rest) ∧
    (op = "mov" ∨ op = "add" ∨ op = "sub" ∨ op = "swt" ∨ op = "jro")

/-- The invariant: a waiting node is always parked on a port-reading
instruction. -/
def WaitInv (m : Machine) : Prop :=
  ∀ id n, mlookup m id = some n → n.wait_port ≠ none →
    ∃ nd, currentStatement n = some nd ∧ readsPortInstr nd

/-- The code-position/wait projection used by the frame lemmas. -/
def proj3 (n : TISNode) : List ASTNode × Nat × Option String :=
  (n.ast, n.instruction_pointer, n.wait_port)

/-- Every node's code position and wait state is unchanged. -/
def awf (m m' : Machine) : Prop :=
  ∀ i, (mlookup m' i).map proj3 = (mlookup m i).map proj3

/-- Every node's code position and wait state except possibly the stepped
node's is unchanged. -/
def others (selfId : Int) (m m' : Machine) : Prop :=
  ∀ i, i ≠ selfId → (mlookup m' i).map proj3 = (mlookup m i).map proj3

theorem awf_refl (m : Machine) : awf m m := fun _ => rfl

theorem awf_trans {m₁ m₂ m₃ : Machine} (h1 : awf m₁ m₂) (h2 : awf m₂ m₃) :
    awf m₁ m₃ := fun i => (h2 i).trans (h1 i)

theorem awf_mupdate (m : Machine) (id : Int) (f : TISNode → TISNode)
    (hf : ∀ x, proj3 (f x) = proj3 x) : awf m (mupdate m id f) := by
  intro i
  rw [mlookup_mupdate]
  split
  · cases h : mlookup m i <;> simp [hf]
  · rfl

theorem awf_others {m m' : Machine} (h : awf m m') (selfId : Int) :
    others selfId m m' := fun i _ => h i

theorem others_refl (selfId : Int) (m : Machine) : others selfId m m :=
  fun _ _ => rfl

theorem others_trans {selfId : Int} {m₁ m₂ m₃ : Machine}
    (h1 : others selfId m₁ m₂) (h2 : others selfId m₂ m₃) :
    others selfId m₁ m₃ := fun i hi => (h2 i hi).trans (h1 i hi)

theorem others_mupdate_self (selfId : Int) (m : Machine) (f : TISNode → TISNode) :
    others selfId m (mupdate m selfId f) := by
  intro i hi
  rw [mlookup_mupdate_ne f hi]

/-- Effect of `get_value_from_port` on the code-position/wait projection:
other nodes keep it entirely; the caller keeps its code position, keeps its
wait port if it was already waiting, and can only be left waiting from a
non-waiting state when the call returned no value. -/
theorem gv_frame {m m' : Machine} {selfId : Int} {port : String} {vo : Option Int}
    {n : TISNode}
    (hn : mlookup m selfId = some n)
    (h : get_value_from_port m selfId port = .ok (m', vo)) :
    others selfId m m' ∧ ∃ n', mlookup m' selfId = some n' ∧
      n'.ast = n.ast ∧ n'.instruction_pointer = n.instruction_pointer ∧
      (n.wait_port ≠ none → n'.wait_port = n.wait_port) ∧
      (n.wait_port = none → vo ≠ none → n'.wait_port = none) := by
  rw [get_value_from_port, getSelf_ok hn, pres_ok_bind] at h
  by_cases hw : n.wait_port.isSome
  · rw [if_pos hw] at h
    cases hs : n.sent_value with
    | none =>
      rw [hs] at h
      obtain ⟨rfl, rfl⟩ : m = m' ∧ (none : Option Int) = vo := by
        simpa using h
      exact ⟨others_refl _ _, n, hn, rfl, rfl, fun _ => rfl, fun _ hv => absurd rfl hv⟩
    | some sv =>
      rw [hs] at h
      dsimp only [] at h
      rw [getSelf_ok (mlookup_mupdate_self _ hn), pres_ok_bind] at h
      cases hd : directionsGet ({ n with last_port := some sv.1 }) sv.1 with
      | error e => rw [hd] at h; exact absurd h (by simp [pres_error_bind])
      | ok dirOpt =>
        rw [hd, pres_ok_bind] at h
        cases dirOpt with
        | none => exact absurd h (by simp)
        | some tid =>
          dsimp only [] at h
          cases ht : mlookup (mupdate m selfId fun x => { x with last_port := some sv.1 }) tid with
          | none => rw [ht] at h; exact absurd h (by simp)
          | some tn =>
            rw [ht] at h
            obtain ⟨rfl, rfl⟩ :
                mupdate (mupdate m selfId fun x => { x with last_port := some sv.1 }) tid
                  (fun x => { x with port_value := none }) = m' ∧ some sv.2 = vo := by
              simpa using h
            have ha : awf m (mupdate (mupdate m selfId fun x => { x with last_port := some sv.1 })
                tid (fun x => { x with port_value := none })) :=
              awf_trans
                (awf_mupdate m selfId (fun x => { x with last_port := some sv.1 })
                  (fun _ => rfl))
                (awf_mupdate _ tid (fun x => { x with port_value := none })
                  (fun _ => rfl))
            refine ⟨awf_others ha _, ?_⟩
            have h1 : mlookup (mupdate m selfId fun x => { x with last_port := some sv.1 })
                selfId = some ({ n with last_port := some sv.1 }) :=
              mlookup_mupdate_self _ hn
            by_cases hts : tid = selfId
            · subst hts
              refine ⟨_, mlookup_mupdate_self _ h1, rfl, rfl, fun _ => rfl, ?_⟩
              intro hwn
              simp [hwn]
            · refine ⟨{ n with last_port := some sv.1 }, ?_, rfl, rfl, fun _ => rfl, ?_⟩
              · rw [mlookup_mupdate_ne _ (by omega : selfId ≠ tid)]
                exact h1
              · intro hwn
                simp [hwn]
  · rw [if_neg hw] at h
    have hwn : n.wait_port = none := by
      cases hq : n.wait_port
      · rfl
      · rw [hq] at hw; simp at hw
    by_cases hnil : port = "NIL"
    · rw [if_pos hnil] at h
      obtain ⟨rfl, rfl⟩ : m = m' ∧ (some (0 : Int)) = vo := by simpa using h
      exact ⟨others_refl _ _, n, hn, rfl, rfl, fun hq => absurd hwn hq, fun _ _ => hwn⟩
    · rw [if_neg hnil] at h
      cases hp : (if port = "LAST" then n.last_port else some port) with
      | none =>
        rw [hp] at h
        obtain ⟨rfl, rfl⟩ : m = m' ∧ (none : Option Int) = vo := by simpa using h
        exact ⟨others_refl _ _, n, hn, rfl, rfl, fun hq => absurd hwn hq,
          fun _ hv => absurd rfl hv⟩
      | some p =>
        rw [hp] at h
        obtain ⟨rfl, rfl⟩ :
            mupdate m selfId (fun x =>
              { x with wait_port := some p, state := .WILL_BE_RUNNING }) = m' ∧
            (none : Option Int) = vo := by simpa using h
        refine ⟨others_mupdate_self _ _ _, _, mlookup_mupdate_self _ hn, rfl, rfl,
          fun hq => absurd hwn hq, fun _ hv => absurd rfl hv⟩

/-- `svp_direct` touches only `port_value`, `state` and the target's
`sent_value`: every node's code position and wait state is unchanged. -/
theorem svp_direct_awf {m m' : Machine} {selfId : Int} {port : String} {v : Int}
    {b : Bool} (h : svp_direct m selfId port v = .ok (m', b)) : awf m m' := by
  have hpre : awf m (mupdate m selfId fun n =>
      { n with port_value := some (port, v), state := .WILL_BE_RUNNING }) :=
    awf_mupdate m selfId _ (fun _ => rfl)
  rw [svp_direct] at h
  cases hq : getSelf (mupdate m selfId fun n =>
      { n with port_value := some (port, v), state := .WILL_BE_RUNNING }) selfId with
  | error e => rw [hq] at h; exact absurd h (by simp [pres_error_bind])
  | ok self1 =>
    rw [hq, pres_ok_bind] at h
    cases hd : directionsGet self1 port with
    | error e => rw [hd] at h; exact absurd h (by simp [pres_error_bind])
    | ok dirOpt =>
      rw [hd, pres_ok_bind] at h
      cases dirOpt with
      | none =>
        dsimp only [] at h
        rw [Except.ok.injEq, Prod.mk.injEq] at h
        obtain ⟨rfl, rfl⟩ := h
        exact hpre
      | some tid =>
        dsimp only [] at h
        cases ht : mlookup (mupdate m selfId fun n =>
            { n with port_value := some (port, v), state := .WILL_BE_RUNNING }) tid with
        | none =>
          rw [ht] at h
          rw [Except.ok.injEq, Prod.mk.injEq] at h
          obtain ⟨rfl, rfl⟩ := h
          exact hpre
        | some target =>
          rw [ht] at h
          dsimp only [] at h
          cases hlk : look_for_port_of port with
          | error e => rw [hlk] at h; exact absurd h (by simp [pres_error_bind])
          | ok look =>
            rw [hlk, pres_ok_bind] at h
            by_cases hwt : target.wait_port = some "ANY" ∨ target.wait_port = some look
            · rw [if_pos hwt] at h
              rw [Except.ok.injEq, Prod.mk.injEq] at h
              obtain ⟨rfl, rfl⟩ := h
              exact awf_trans hpre (awf_mupdate _ tid _ (fun _ => rfl))
            · rw [if_neg hwt] at h
              rw [Except.ok.injEq, Prod.mk.injEq] at h
              obtain ⟨rfl, rfl⟩ := h
              exact hpre

theorem svp_any_loop_awf : ∀ (ds : List String) {m m' : Machine} {selfId : Int}
    {v : Int} {b : Bool},
    svp_any_loop m selfId v ds = .ok (m', b) → awf m m' := by
  intro ds
  induction ds with
  | nil =>
    intro m m' selfId v b h
    rw [svp_any_loop, Except.ok.injEq, Prod.mk.injEq] at h
    obtain ⟨rfl, rfl⟩ := h
    exact awf_refl m
  | cons d rest ih =>
    intro m m' selfId v b h
    rw [svp_any_loop] at h
    cases hq : getSelf m selfId with
    | error e => rw [hq] at h; exact absurd h (by simp [pres_error_bind])
    | ok self =>
      rw [hq, pres_ok_bind] at h
      cases hd : directionsGet self d with
      | error e => rw [hd] at h; exact absurd h (by simp [pres_error_bind])
      | ok dirOpt =>
        rw [hd, pres_ok_bind] at h
        cases dirOpt with
        | none =>
          dsimp only [] at h
          exact ih h
        | some tid =>
          dsimp only [] at h
          cases hs : svp_direct m selfId d v with
          | error e => rw [hs] at h; exact absurd h (by simp [pres_error_bind])
          | ok p =>
            obtain ⟨m2, r⟩ := p
            rw [hs, pres_ok_bind] at h
            cases r with
            | false =>
              simp only [Bool.false_eq_true, if_false] at h
              exact awf_trans (svp_direct_awf hs) (ih h)
            | true =>
              simp only [if_true] at h
              rw [Except.ok.injEq, Prod.mk.injEq] at h
              obtain ⟨rfl, rfl⟩ := h
              exact svp_direct_awf hs

theorem svp_fuel_awf : ∀ (fuel : Nat) {m m' : Machine} {selfId : Int}
    {port : String} {v : Int} {b : Bool},
    svp_fuel fuel m selfId port v = .ok (m', b) → awf m m' := by
  intro fuel
  induction fuel with
  | zero => intro m m' selfId port v b h; exact absurd h (by simp [svp_fuel])
  | succ f ih =>
    intro m m' selfId port v b h
    rw [svp_fuel] at h
    by_cases hsp : port = "ANY" ∨ port = "LAST" ∨ port = "NIL"
    · rw [if_pos hsp] at h
      have hpre : awf m (mupdate m selfId fun n =>
          { n with port_value := some (port, v), state := .WILL_BE_RUNNING }) :=
        awf_mupdate m selfId _ (fun _ => rfl)
      by_cases hany : port = "ANY"
      · rw [if_pos hany] at h
        exact awf_trans hpre (svp_any_loop_awf _ h)
      · rw [if_neg hany] at h
        by_cases hlast : port = "LAST"
        · rw [if_pos hlast] at h
          cases hq : getSelf (mupdate m selfId fun n =>
              { n with port_value := some (port, v), state := .WILL_BE_RUNNING }) selfId with
          | error e => rw [hq] at h; exact absurd h (by simp [pres_error_bind])
          | ok self1 =>
            rw [hq, pres_ok_bind] at h
            cases hlp : self1.last_port with
            | none =>
              rw [hlp] at h
              rw [Except.ok.injEq, Prod.mk.injEq] at h
              obtain ⟨rfl, rfl⟩ := h
              exact hpre
            | some p =>
              rw [hlp] at h
              dsimp only [] at h
              exact awf_trans hpre (ih h)
        · rw [if_neg hlast] at h
          rw [Except.ok.injEq, Prod.mk.injEq] at h
          obtain ⟨rfl, rfl⟩ := h
          exact hpre
    · rw [if_neg hsp] at h
      exact svp_direct_awf h

/-- `set_value_to_port` never changes any node's code position or wait
state. -/
theorem set_value_to_port_awf {m m' : Machine} {selfId : Int} {port : String}
    {v : Int} {b : Bool} (h : set_value_to_port m selfId port v = .ok (m', b)) :
    awf m m' :=
  svp_fuel_awf python_recursion_limit h

/-- What one instruction-function call guarantees about the stepped node,
as needed to preserve `WaitInv`: the code is unchanged; a completed
instruction never leaves a fresh wait behind; an incomplete one that parked
the node kept the instruction pointer and was reading a port (its first
operand is a port literal); an already-waiting node that stays incomplete
keeps its wait and pointer. -/
def di_post (n n' : TISNode) (done : Bool) (args : List ASTNode) : Prop :=
  n'.ast = n.ast ∧
  (n.wait_port = none → done = true → n'.wait_port = none) ∧
  (n.wait_port = none → done = false → n'.wait_port ≠ none →
    n'.instruction_pointer = n.instruction_pointer ∧
    ∃ p rest, args = .PortLiteral p :: rest) ∧
  (n.wait_port ≠ none → done = false →
    n'.wait_port = n.wait_port ∧ n'.instruction_pointer = n.instruction_pointer)

theorem di_post_keep {n n' : TISNode} (ha : n'.ast = n.ast)
    (hip : n'.instruction_pointer = n.instruction_pointer)
    (hw : n'.wait_port = n.wait_port) (done : Bool) (args : List ASTNode) :
    di_post n n' done args := by
  refine ⟨ha, ?_, ?_, ?_⟩
  · intro h1 _
    rw [hw, h1]
  · intro h1 _ h2
    rw [hw, h1] at h2
    exact absurd rfl h2
  · intro _ _
    exact ⟨hw, hip⟩

theorem di_post_done {n n' : TISNode} (ha : n'.ast = n.ast)
    (hw : n'.wait_port = n.wait_port) (args : List ASTNode) :
    di_post n n' true args := by
  refine ⟨ha, ?_, ?_, ?_⟩
  · intro h1 _
    rw [hw, h1]
  · intro _ hd
    exact absurd hd (by simp)
  · intro _ hd
    exact absurd hd (by simp)

/-- Extract the stepped node from an `awf`-preserving machine change. -/
theorem awf_self_node {m m' : Machine} {selfId : Int} {n : TISNode}
    (h : awf m m') (hn : mlookup m selfId = some n) :
    ∃ n', mlookup m' selfId = some n' ∧ n'.ast = n.ast ∧
      n'.instruction_pointer = n.instruction_pointer ∧
      n'.wait_port = n.wait_port := by
  have hp := h selfId
  rw [hn] at hp
  cases hq : mlookup m' selfId with
  | none => rw [hq] at hp; exact absurd hp (by simp)
  | some n' =>
    rw [hq] at hp
    have h3 : proj3 n' = proj3 n := by simpa using hp
    rw [proj3, proj3, Prod.mk.injEq, Prod.mk.injEq] at h3
    exact ⟨n', rfl, h3.1, h3.2.1, h3.2.2⟩

/-- The plain self-update instructions (`mupdate` on accs/baks/cursor). -/
theorem frame_of_mupdate_keep {m : Machine} {selfId : Int} {n : TISNode}
    (hn : mlookup m selfId = some n) (f : TISNode → TISNode)
    (ha : ∀ x, (f x).ast = x.ast)
    (hip : ∀ x, (f x).instruction_pointer = x.instruction_pointer)
    (hw : ∀ x, (f x).wait_port = x.wait_port) (done : Bool) (args : List ASTNode) :
    others selfId m (mupdate m selfId f) ∧
      ∃ n', mlookup (mupdate m selfId f) selfId = some n' ∧ di_post n n' done args :=
  ⟨others_mupdate_self _ _ _, f n, mlookup_mupdate_self f hn,
    di_post_keep (ha n) (hip n) (hw n) done args⟩

theorem instr_nop_frame {m m' : Machine} {selfId : Int} {args : List ASTNode}
    {done : Bool} {n : TISNode}
    (hn : mlookup m selfId = some n)
    (h : instr_nop m selfId args = .ok (m', done)) :
    done = true ∧ others selfId m m' ∧
      ∃ n', mlookup m' selfId = some n' ∧ di_post n n' done args := by
  rw [instr_nop, Except.ok.injEq, Prod.mk.injEq] at h
  obtain ⟨rfl, rfl⟩ := h
  exact ⟨rfl, others_refl _ _, n, hn, di_post_done rfl rfl args⟩

theorem instr_sav_frame {m m' : Machine} {selfId : Int} {args : List ASTNode}
    {done : Bool} {n : TISNode}
    (hn : mlookup m selfId = some n)
    (h : instr_sav m selfId args = .ok (m', done)) :
    done = true ∧ others selfId m m' ∧
      ∃ n', mlookup m' selfId = some n' ∧ di_post n n' done args := by
  rw [instr_sav, getSelf_ok hn, pres_ok_bind] at h
  cases h1 : pyIndex n.accs n.register_cursor with
  | error e => rw [h1] at h; exact absurd h (by simp [pres_error_bind])
  | ok v =>
    rw [h1, pres_ok_bind] at h
    cases h2 : pySetIdx n.baks n.register_cursor v with
    | error e => rw [h2] at h; exact absurd h (by simp [pres_error_bind])
    | ok baks' =>
      rw [h2, pres_ok_bind, Except.ok.injEq, Prod.mk.injEq] at h
      obtain ⟨rfl, rfl⟩ := h
      exact ⟨rfl, frame_of_mupdate_keep hn (fun x => { x with baks := baks' })
        (fun _ => rfl) (fun _ => rfl) (fun _ => rfl) _ args⟩

theorem instr_swp_frame {m m' : Machine} {selfId : Int} {args : List ASTNode}
    {done : Bool} {n : TISNode}
    (hn : mlookup m selfId = some n)
    (h : instr_swp m selfId args = .ok (m', done)) :
    done = true ∧ others selfId m m' ∧
      ∃ n', mlookup m' selfId = some n' ∧ di_post n n' done args := by
  rw [instr_swp, getSelf_ok hn, pres_ok_bind] at h
  cases h1 : pyIndex n.accs n.register_cursor with
  | error e => rw [h1] at h; exact absurd h (by simp [pres_error_bind])
  | ok a =>
    rw [h1, pres_ok_bind] at h
    cases h2 : pyIndex n.baks n.register_cursor with
    | error e => rw [h2] at h; exact absurd h (by simp [pres_error_bind])
    | ok b =>
      rw [h2, pres_ok_bind] at h
      cases h3 : pySetIdx n.accs n.register_cursor b with
      | error e => rw [h3] at h; exact absurd h (by simp [pres_error_bind])
      | ok accs' =>
        rw [h3, pres_ok_bind] at h
        cases h4 : pySetIdx n.baks n.register_cursor a with
        | error e => rw [h4] at h; exact absurd h (by simp [pres_error_bind])
        | ok baks' =>
          rw [h4, pres_ok_bind, Except.ok.injEq, Prod.mk.injEq] at h
          obtain ⟨rfl, rfl⟩ := h
          exact ⟨rfl, frame_of_mupdate_keep hn (fun x => { x with accs := accs', baks := baks' })
            (fun _ => rfl) (fun _ => rfl) (fun _ => rfl) _ args⟩

theorem instr_neg_frame {m m' : Machine} {selfId : Int} {args : List ASTNode}
    {done : Bool} {n : TISNode}
    (hn : mlookup m selfId = some n)
    (h : instr_neg m selfId args = .ok (m', done)) :
    done = true ∧ others selfId m m' ∧
      ∃ n', mlookup m' selfId = some n' ∧ di_post n n' done args := by
  rw [instr_neg, getSelf_ok hn, pres_ok_bind] at h
  cases h1 : pyIndex n.accs n.register_cursor with
  | error e => rw [h1] at h; exact absurd h (by simp [pres_error_bind])
  | ok v =>
    rw [h1, pres_ok_bind] at h
    cases h2 : pySetIdx n.accs n.register_cursor (v * (-1)) with
    | error e => rw [h2] at h; exact absurd h (by simp [pres_error_bind])
    | ok accs' =>
      rw [h2, pres_ok_bind, Except.ok.injEq, Prod.mk.injEq] at h
      obtain ⟨rfl, rfl⟩ := h
      exact ⟨rfl, frame_of_mupdate_keep hn (fun x => { x with accs := accs' })
        (fun _ => rfl) (fun _ => rfl) (fun _ => rfl) _ args⟩

theorem instr_jmp_frame {m m' : Machine} {selfId : Int} {args : List ASTNode}
    {done : Bool} {n : TISNode}
    (hn : mlookup m selfId = some n)
    (h : instr_jmp m selfId args = .ok (m', done)) :
    done = true ∧ others selfId m m' ∧
      ∃ n', mlookup m' selfId = some n' ∧ di_post n n' done args ∧
        n'.wait_port = n.wait_port := by
  rw [instr_jmp] at h
  cases h0 : pyIndex args 0 with
  | error e => rw [h0] at h; exact absurd h (by simp [pres_error_bind])
  | ok arg =>
    rw [h0, pres_ok_bind] at h
    cases h1 : ast_name arg with
    | error e => rw [h1] at h; exact absurd h (by simp [pres_error_bind])
    | ok name =>
      rw [h1, pres_ok_bind, getSelf_ok hn, pres_ok_bind] at h
      cases h2 : dictFind n.label_table name with
      | none => rw [h2] at h; exact absurd h (by simp)
      | some inx =>
        rw [h2] at h
        dsimp only [] at h
        rw [Except.ok.injEq, Prod.mk.injEq] at h
        obtain ⟨rfl, rfl⟩ := h
        refine ⟨rfl, others_mupdate_self _ _ _, _, mlookup_mupdate_self _ hn, ?_, rfl⟩
        exact di_post_done (by rfl) (by rfl) args

theorem pyIndex_zero_ok {α : Type} {l : List α} {a : α}
    (h : pyIndex l 0 = .ok a) : ∃ rest, l = a :: rest := by
  cases l with
  | nil => exact absurd h (by simp [pyIndex])
  | cons x rest =>
    rw [pyIndex_zero_cons, Except.ok.injEq] at h
    exact ⟨rest, by rw [h]⟩

/-- The conditional jumps either fall through or delegate to `instr_jmp`;
both complete and never touch `wait_port`. -/
theorem instr_jez_frame {m m' : Machine} {selfId : Int} {args : List ASTNode}
    {done : Bool} {n : TISNode}
    (hn : mlookup m selfId = some n)
    (h : instr_jez m selfId args = .ok (m', done)) :
    done = true ∧ others selfId m m' ∧
      ∃ n', mlookup m' selfId = some n' ∧ di_post n n' done args := by
  rw [instr_jez, getSelf_ok hn, pres_ok_bind] at h
  cases h1 : pyIndex n.accs n.register_cursor with
  | error e => rw [h1] at h; exact absurd h (by simp [pres_error_bind])
  | ok cur =>
    rw [h1, pres_ok_bind] at h
    by_cases hc : cur = 0
    · rw [if_pos hc] at h
      cases h2 : pyIndex args 0 with
      | error e => rw [h2] at h; exact absurd h (by simp [pres_error_bind])
      | ok arg =>
        rw [h2, pres_ok_bind] at h
        obtain ⟨hd, ho, n', hn', hdp, hwp⟩ := instr_jmp_frame hn h
        subst hd
        exact ⟨rfl, ho, n', hn', di_post_done hdp.1 hwp args⟩
    · rw [if_neg hc, Except.ok.injEq, Prod.mk.injEq] at h
      obtain ⟨rfl, rfl⟩ := h
      exact ⟨rfl, others_refl _ _, n, hn, di_post_done rfl rfl args⟩

theorem instr_jnz_frame {m m' : Machine} {selfId : Int} {args : List ASTNode}
    {done : Bool} {n : TISNode}
    (hn : mlookup m selfId = some n)
    (h : instr_jnz m selfId args = .ok (m', done)) :
    done = true ∧ others selfId m m' ∧
      ∃ n', mlookup m' selfId = some n' ∧ di_post n n' done args := by
  rw [instr_jnz, getSelf_ok hn, pres_ok_bind] at h
  cases h1 : pyIndex n.accs n.register_cursor with
  | error e => rw [h1] at h; exact absurd h (by simp [pres_error_bind])
  | ok cur =>
    rw [h1, pres_ok_bind] at h
    by_cases hc : cur ≠ 0
    · rw [if_pos hc] at h
      cases h2 : pyIndex args 0 with
      | error e => rw [h2] at h; exact absurd h (by simp [pres_error_bind])
      | ok arg =>
        rw [h2, pres_ok_bind] at h
        obtain ⟨hd, ho, n', hn', hdp, hwp⟩ := instr_jmp_frame hn h
        subst hd
        exact ⟨rfl, ho, n', hn', di_post_done hdp.1 hwp args⟩
    · rw [if_neg hc, Except.ok.injEq, Prod.mk.injEq] at h
      obtain ⟨rfl, rfl⟩ := h
      exact ⟨rfl, others_refl _ _, n, hn, di_post_done rfl rfl args⟩

theorem instr_jgz_frame {m m' : Machine} {selfId : Int} {args : List ASTNode}
    {done : Bool} {n : TISNode}
    (hn : mlookup m selfId = some n)
    (h : instr_jgz m selfId args = .ok (m', done)) :
    done = true ∧ others selfId m m' ∧
      ∃ n', mlookup m' selfId = some n' ∧ di_post n n' done args := by
  rw [instr_jgz, getSelf_ok hn, pres_ok_bind] at h
  cases h1 : pyIndex n.accs n.register_cursor with
  | error e => rw [h1] at h; exact absurd h (by simp [pres_error_bind])
  | ok cur =>
    rw [h1, pres_ok_bind] at h
    by_cases hc : cur > 0
    · rw [if_pos hc] at h
      cases h2 : pyIndex args 0 with
      | error e => rw [h2] at h; exact absurd h (by simp [pres_error_bind])
      | ok arg =>
        rw [h2, pres_ok_bind] at h
        obtain ⟨hd, ho, n', hn', hdp, hwp⟩ := instr_jmp_frame hn h
        subst hd
        exact ⟨rfl, ho, n', hn', di_post_done hdp.1 hwp args⟩
    · rw [if_neg hc, Except.ok.injEq, Prod.mk.injEq] at h
      obtain ⟨rfl, rfl⟩ := h
      exact ⟨rfl, others_refl _ _, n, hn, di_post_done rfl rfl args⟩

theorem instr_jlz_frame {m m' : Machine} {selfId : Int} {args : List ASTNode}
    {done : Bool} {n : TISNode}
    (hn : mlookup m selfId = some n)
    (h : instr_jlz m selfId args = .ok (m', done)) :
    done = true ∧ others selfId m m' ∧
      ∃ n', mlookup m' selfId = some n' ∧ di_post n n' done args := by
  rw [instr_jlz, getSelf_ok hn, pres_ok_bind] at h
  cases h1 : pyIndex n.accs n.register_cursor with
  | error e => rw [h1] at h; exact absurd h (by simp [pres_error_bind])
  | ok cur =>
    rw [h1, pres_ok_bind] at h
    by_cases hc : cur < 0
    · rw [if_pos hc] at h
      cases h2 : pyIndex args 0 with
      | error e => rw [h2] at h; exact absurd h (by simp [pres_error_bind])
      | ok arg =>
        rw [h2, pres_ok_bind] at h
        obtain ⟨hd, ho, n', hn', hdp, hwp⟩ := instr_jmp_frame hn h
        subst hd
        exact ⟨rfl, ho, n', hn', di_post_done hdp.1 hwp args⟩
    · rw [if_neg hc, Except.ok.injEq, Prod.mk.injEq] at h
      obtain ⟨rfl, rfl⟩ := h
      exact ⟨rfl, others_refl _ _, n, hn, di_post_done rfl rfl args⟩

/-- After a `get_value_from_port` that returned a value, the caller's wait
port is unchanged overall (it was either kept, or was `none` and stays
`none`). -/
theorem gv_wait_eq_of_some {n n' : TISNode} {vo : Option Int} {v : Int}
    (hv : vo = some v)
    (hkeep : n.wait_port ≠ none → n'.wait_port = n.wait_port)
    (hnone : n.wait_port = none → vo ≠ none → n'.wait_port = none) :
    n'.wait_port = n.wait_port := by
  cases hw : n.wait_port with
  | none => rw [hnone hw (by rw [hv]; simp)]
  | some p => rw [hkeep (by rw [hw]; simp), hw]

theorem instr_add_frame {m m' : Machine} {selfId : Int} {args : List ASTNode}
    {done : Bool} {n : TISNode}
    (hn : mlookup m selfId = some n)
    (h : instr_add m selfId args = .ok (m', done)) :
    others selfId m m' ∧ ∃ n', mlookup m' selfId = some n' ∧ di_post n n' done args := by
  rw [instr_add] at h
  cases h0 : pyIndex args 0 with
  | error e => rw [h0] at h; exact absurd h (by simp [pres_error_bind])
  | ok operand =>
    rw [h0, pres_ok_bind] at h
    cases operand with
    | IntegerLiteral v =>
      dsimp only [] at h
      rw [getSelf_ok hn, pres_ok_bind] at h
      cases h1 : pyIndex n.accs n.register_cursor with
      | error e => rw [h1] at h; exact absurd h (by simp [pres_error_bind])
      | ok cur =>
        rw [h1, pres_ok_bind] at h
        cases h2 : pySetIdx n.accs n.register_cursor (cur + v) with
        | error e => rw [h2] at h; exact absurd h (by simp [pres_error_bind])
        | ok accs' =>
          rw [h2, pres_ok_bind, Except.ok.injEq, Prod.mk.injEq] at h
          obtain ⟨rfl, rfl⟩ := h
          exact frame_of_mupdate_keep hn (fun x => { x with accs := accs' })
            (fun _ => rfl) (fun _ => rfl) (fun _ => rfl) _ args
    | PortLiteral name =>
      dsimp only [] at h
      obtain ⟨rest, rfl⟩ := pyIndex_zero_ok h0
      cases hg : get_value_from_port m selfId name with
      | error e => rw [hg] at h; exact absurd h (by simp [pres_error_bind])
      | ok p =>
        obtain ⟨m1, vo⟩ := p
        rw [hg, pres_ok_bind] at h
        obtain ⟨ho1, n1, hn1, ha1, hip1, hwk1, hwn1⟩ := gv_frame hn hg
        cases vo with
        | none =>
          dsimp only [] at h
          rw [Except.ok.injEq, Prod.mk.injEq] at h
          obtain ⟨rfl, rfl⟩ := h
          refine ⟨ho1, n1, hn1, ha1, ?_, ?_, ?_⟩
          · intro _ hd
            exact absurd hd (by simp)
          · intro _ _ _
            exact ⟨hip1, name, rest, rfl⟩
          · intro hw _
            exact ⟨hwk1 hw, hip1⟩
        | some v =>
          dsimp only [] at h
          rw [getSelf_ok hn1, pres_ok_bind] at h
          cases h1 : pyIndex n1.accs n1.register_cursor with
          | error e => rw [h1] at h; exact absurd h (by simp [pres_error_bind])
          | ok cur =>
            rw [h1, pres_ok_bind] at h
            cases h2 : pySetIdx n1.accs n1.register_cursor (cur + v) with
            | error e => rw [h2] at h; exact absurd h (by simp [pres_error_bind])
            | ok accs' =>
              rw [h2, pres_ok_bind, Except.ok.injEq, Prod.mk.injEq] at h
              obtain ⟨rfl, rfl⟩ := h
              have hw1 : n1.wait_port = n.wait_port := gv_wait_eq_of_some rfl hwk1 hwn1
              refine ⟨others_trans ho1 (others_mupdate_self _ _ _), _,
                mlookup_mupdate_self _ hn1, ?_⟩
              exact di_post_done ha1 hw1 _
    | RegisterLiteral r =>
      dsimp only [] at h
      rw [getSelf_ok hn, pres_ok_bind] at h
      cases h1 : pyIndex n.accs n.register_cursor with
      | error e => rw [h1] at h; exact absurd h (by simp [pres_error_bind])
      | ok cur =>
        rw [h1, pres_ok_bind] at h
        cases h2 : pySetIdx n.accs n.register_cursor (cur * 2) with
        | error e => rw [h2] at h; exact absurd h (by simp [pres_error_bind])
        | ok accs' =>
          rw [h2, pres_ok_bind, Except.ok.injEq, Prod.mk.injEq] at h
          obtain ⟨rfl, rfl⟩ := h
          exact frame_of_mupdate_keep hn (fun x => { x with accs := accs' })
            (fun _ => rfl) (fun _ => rfl) (fun _ => rfl) _ args
    | Label s =>
      dsimp only [] at h
      rw [Except.ok.injEq, Prod.mk.injEq] at h
      obtain ⟨rfl, rfl⟩ := h
      exact ⟨others_refl _ _, n, hn, di_post_done rfl rfl args⟩
    | LabelReference s =>
      dsimp only [] at h
      rw [Except.ok.injEq, Prod.mk.injEq] at h
      obtain ⟨rfl, rfl⟩ := h
      exact ⟨others_refl _ _, n, hn, di_post_done rfl rfl args⟩
    | NArgumentInstruction op iargs =>
      dsimp only [] at h
      rw [Except.ok.injEq, Prod.mk.injEq] at h
      obtain ⟨rfl, rfl⟩ := h
      exact ⟨others_refl _ _, n, hn, di_post_done rfl rfl args⟩

theorem instr_sub_frame {m m' : Machine} {selfId : Int} {args : List ASTNode}
    {done : Bool} {n : TISNode}
    (hn : mlookup m selfId = some n)
    (h : instr_sub m selfId args = .ok (m', done)) :
    others selfId m m' ∧ ∃ n', mlookup m' selfId = some n' ∧ di_post n n' done args := by
  rw [instr_sub] at h
  cases h0 : pyIndex args 0 with
  | error e => rw [h0] at h; exact absurd h (by simp [pres_error_bind])
  | ok operand =>
    rw [h0, pres_ok_bind] at h
    cases operand with
    | IntegerLiteral v =>
      dsimp only [] at h
      rw [getSelf_ok hn, pres_ok_bind] at h
      cases h1 : pyIndex n.accs n.register_cursor with
      | error e => rw [h1] at h; exact absurd h (by simp [pres_error_bind])
      | ok cur =>
        rw [h1, pres_ok_bind] at h
        cases h2 : pySetIdx n.accs n.register_cursor (cur - v) with
        | error e => rw [h2] at h; exact absurd h (by simp [pres_error_bind])
        | ok accs' =>
          rw [h2, pres_ok_bind, Except.ok.injEq, Prod.mk.injEq] at h
          obtain ⟨rfl, rfl⟩ := h
          exact frame_of_mupdate_keep hn (fun x => { x with accs := accs' })
            (fun _ => rfl) (fun _ => rfl) (fun _ => rfl) _ args
    | PortLiteral name =>
      dsimp only [] at h
      obtain ⟨rest, rfl⟩ := pyIndex_zero_ok h0
      cases hg : get_value_from_port m selfId name with
      | error e => rw [hg] at h; exact absurd h (by simp [pres_error_bind])
      | ok p =>
        obtain ⟨m1, vo⟩ := p
        rw [hg, pres_ok_bind] at h
        obtain ⟨ho1, n1, hn1, ha1, hip1, hwk1, hwn1⟩ := gv_frame hn hg
        cases vo with
        | none =>
          dsimp only [] at h
          rw [Except.ok.injEq, Prod.mk.injEq] at h
          obtain ⟨rfl, rfl⟩ := h
          refine ⟨ho1, n1, hn1, ha1, ?_, ?_, ?_⟩
          · intro _ hd
            exact absurd hd (by simp)
          · intro _ _ _
            exact ⟨hip1, name, rest, rfl⟩
          · intro hw _
            exact ⟨hwk1 hw, hip1⟩
        | some v =>
          dsimp only [] at h
          rw [getSelf_ok hn1, pres_ok_bind] at h
          cases h1 : pyIndex n1.accs n1.register_cursor with
          | error e => rw [h1] at h; exact absurd h (by simp [pres_error_bind])
          | ok cur =>
            rw [h1, pres_ok_bind] at h
            cases h2 : pySetIdx n1.accs n1.register_cursor (cur - v) with
            | error e => rw [h2] at h; exact absurd h (by simp [pres_error_bind])
            | ok accs' =>
              rw [h2, pres_ok_bind, Except.ok.injEq, Prod.mk.injEq] at h
              obtain ⟨rfl, rfl⟩ := h
              have hw1 : n1.wait_port = n.wait_port := gv_wait_eq_of_some rfl hwk1 hwn1
              refine ⟨others_trans ho1 (others_mupdate_self _ _ _), _,
                mlookup_mupdate_self _ hn1, ?_⟩
              exact di_post_done ha1 hw1 _
    | RegisterLiteral r =>
      dsimp only [] at h
      rw [getSelf_ok hn, pres_ok_bind] at h
      cases h2 : pySetIdx n.accs n.register_cursor 0 with
      | error e => rw [h2] at h; exact absurd h (by simp [pres_error_bind])
      | ok accs' =>
        rw [h2, pres_ok_bind, Except.ok.injEq, Prod.mk.injEq] at h
        obtain ⟨rfl, rfl⟩ := h
        exact frame_of_mupdate_keep hn (fun x => { x with accs := accs' })
          (fun _ => rfl) (fun _ => rfl) (fun _ => rfl) _ args
    | Label s =>
      dsimp only [] at h
      rw [Except.ok.injEq, Prod.mk.injEq] at h
      obtain ⟨rfl, rfl⟩ := h
      exact ⟨others_refl _ _, n, hn, di_post_done rfl rfl args⟩
    | LabelReference s =>
      dsimp only [] at h
      rw [Except.ok.injEq, Prod.mk.injEq] at h
      obtain ⟨rfl, rfl⟩ := h
      exact ⟨others_refl _ _, n, hn, di_post_done rfl rfl args⟩
    | NArgumentInstruction op iargs =>
      dsimp only [] at h
      rw [Except.ok.injEq, Prod.mk.injEq] at h
      obtain ⟨rfl, rfl⟩ := h
      exact ⟨others_refl _ _, n, hn, di_post_done rfl rfl args⟩

theorem pres_pure_bind {α β : Type} (a : α) (f : α → PRes β) :
    (pure a >>= f : PRes β) = f a := rfl

theorem instr_swt_frame {m m' : Machine} {selfId : Int} {args : List ASTNode}
    {done : Bool} {n : TISNode}
    (hn : mlookup m selfId = some n)
    (h : instr_swt m selfId args = .ok (m', done)) :
    others selfId m m' ∧ ∃ n', mlookup m' selfId = some n' ∧ di_post n n' done args := by
  rw [instr_swt] at h
  cases h0 : pyIndex args 0 with
  | error e => rw [h0] at h; exact absurd h (by simp [pres_error_bind])
  | ok operand =>
    rw [h0, pres_ok_bind] at h
    cases operand with
    | IntegerLiteral v =>
      dsimp only [] at h
      rw [pres_pure_bind, pres_ok_bind, getSelf_ok hn, pres_ok_bind] at h
      dsimp only [] at h
      by_cases hc : ¬ ((n.accs.length : Int) > v ∧ v ≥ 0)
      · rw [if_pos hc] at h
        exact absurd h (by simp)
      · rw [if_neg hc, Except.ok.injEq, Prod.mk.injEq] at h
        obtain ⟨rfl, rfl⟩ := h
        exact frame_of_mupdate_keep hn (fun x => { x with register_cursor := v })
          (fun _ => rfl) (fun _ => rfl) (fun _ => rfl) _ args
    | PortLiteral name =>
      dsimp only [] at h
      rw [pres_pure_bind] at h
      cases hg : get_value_from_port m selfId name with
      | error e => rw [hg] at h; exact absurd h (by simp [pres_error_bind])
      | ok p =>
        obtain ⟨m1, vo⟩ := p
        rw [hg, pres_ok_bind] at h
        obtain ⟨ho1, n1, hn1, ha1, hip1, hwk1, hwn1⟩ := gv_frame hn hg
        rw [getSelf_ok hn1, pres_ok_bind] at h
        cases vo with
        | none =>
          dsimp only [] at h
          exact absurd h (by simp)
        | some v =>
          dsimp only [] at h
          by_cases hc : ¬ ((n1.accs.length : Int) > v ∧ v ≥ 0)
          · rw [if_pos hc] at h
            exact absurd h (by simp)
          · rw [if_neg hc, Except.ok.injEq, Prod.mk.injEq] at h
            obtain ⟨rfl, rfl⟩ := h
            have hw1 : n1.wait_port = n.wait_port := gv_wait_eq_of_some rfl hwk1 hwn1
            refine ⟨others_trans ho1 (others_mupdate_self _ _ _), _,
              mlookup_mupdate_self _ hn1, ?_⟩
            exact di_post_done ha1 hw1 _
    | RegisterLiteral r =>
      dsimp only [] at h
      rw [getSelf_ok hn] at h
      dsimp only [] at h
      cases h1 : pyIndex n.accs n.register_cursor with
      | error e =>
        rw [h1] at h
        exact absurd h (by simp [pres_pure_bind, pres_error_bind])
      | ok v =>
        rw [h1] at h
        dsimp only [] at h
        rw [pres_pure_bind, pres_ok_bind, getSelf_ok hn, pres_ok_bind] at h
        dsimp only [] at h
        by_cases hc : ¬ ((n.accs.length : Int) > v ∧ v ≥ 0)
        · rw [if_pos hc] at h
          exact absurd h (by simp)
        · rw [if_neg hc, Except.ok.injEq, Prod.mk.injEq] at h
          obtain ⟨rfl, rfl⟩ := h
          exact frame_of_mupdate_keep hn (fun x => { x with register_cursor := v })
            (fun _ => rfl) (fun _ => rfl) (fun _ => rfl) _ args
    | Label s =>
      dsimp only [] at h
      rw [getSelf_ok hn] at h
      dsimp only [] at h
      cases h1 : pyIndex n.accs n.register_cursor with
      | error e =>
        rw [h1] at h
        exact absurd h (by simp [pres_pure_bind, pres_error_bind])
      | ok v =>
        rw [h1] at h
        dsimp only [] at h
        rw [pres_pure_bind, pres_ok_bind, getSelf_ok hn, pres_ok_bind] at h
        dsimp only [] at h
        by_cases hc : ¬ ((n.accs.length : Int) > v ∧ v ≥ 0)
        · rw [if_pos hc] at h
          exact absurd h (by simp)
        · rw [if_neg hc, Except.ok.injEq, Prod.mk.injEq] at h
          obtain ⟨rfl, rfl⟩ := h
          exact frame_of_mupdate_keep hn (fun x => { x with register_cursor := v })
            (fun _ => rfl) (fun _ => rfl) (fun _ => rfl) _ args
    | LabelReference s =>
      dsimp only [] at h
      rw [getSelf_ok hn] at h
      dsimp only [] at h
      cases h1 : pyIndex n.accs n.register_cursor with
      | error e =>
        rw [h1] at h
        exact absurd h (by simp [pres_pure_bind, pres_error_bind])
      | ok v =>
        rw [h1] at h
        dsimp only [] at h
        rw [pres_pure_bind, pres_ok_bind, getSelf_ok hn, pres_ok_bind] at h
        dsimp only [] at h
        by_cases hc : ¬ ((n.accs.length : Int) > v ∧ v ≥ 0)
        · rw [if_pos hc] at h
          exact absurd h (by simp)
        · rw [if_neg hc, Except.ok.injEq, Prod.mk.injEq] at h
          obtain ⟨rfl, rfl⟩ := h
          exact frame_of_mupdate_keep hn (fun x => { x with register_cursor := v })
            (fun _ => rfl) (fun _ => rfl) (fun _ => rfl) _ args
    | NArgumentInstruction op iargs =>
      dsimp only [] at h
      rw [getSelf_ok hn] at h
      dsimp only [] at h
      cases h1 : pyIndex n.accs n.register_cursor with
      | error e =>
        rw [h1] at h
        exact absurd h (by simp [pres_pure_bind, pres_error_bind])
      | ok v =>
        rw [h1] at h
        dsimp only [] at h
        rw [pres_pure_bind, pres_ok_bind, getSelf_ok hn, pres_ok_bind] at h
        dsimp only [] at h
        by_cases hc : ¬ ((n.accs.length : Int) > v ∧ v ≥ 0)
        · rw [if_pos hc] at h
          exact absurd h (by simp)
        · rw [if_neg hc, Except.ok.injEq, Prod.mk.injEq] at h
          obtain ⟨rfl, rfl⟩ := h
          exact frame_of_mupdate_keep hn (fun x => { x with register_cursor := v })
            (fun _ => rfl) (fun _ => rfl) (fun _ => rfl) _ args

theorem instr_jro_frame {m m' : Machine} {selfId : Int} {args : List ASTNode}
    {done : Bool} {n : TISNode}
    (hn : mlookup m selfId = some n)
    (h : instr_jro m selfId args = .ok (m', done)) :
    others selfId m m' ∧ ∃ n', mlookup m' selfId = some n' ∧ di_post n n' done args := by
  rw [instr_jro] at h
  cases h0 : pyIndex args 0 with
  | error e => rw [h0] at h; exact absurd h (by simp [pres_error_bind])
  | ok operand =>
    rw [h0, pres_ok_bind] at h
    cases operand with
    | IntegerLiteral v =>
      dsimp only [] at h
      rw [pres_pure_bind, pres_ok_bind] at h
      dsimp only [] at h
      rw [getSelf_ok hn, pres_ok_bind] at h
      cases h1 : dictFindNat n.ast_real_instr_lookup n.instruction_pointer with
      | none => rw [h1] at h; exact absurd h (by simp)
      | some real =>
        rw [h1] at h
        dsimp only [] at h
        cases h2 : pyIndex n.ast_instr_real_lookup ((real : Int) + v - 1) with
        | error e => rw [h2] at h; exact absurd h (by simp [pres_error_bind])
        | ok newIp =>
          rw [h2, pres_ok_bind, Except.ok.injEq, Prod.mk.injEq] at h
          obtain ⟨rfl, rfl⟩ := h
          refine ⟨others_mupdate_self _ _ _, _, mlookup_mupdate_self _ hn, ?_⟩
          exact di_post_done (by rfl) (by rfl) args
    | PortLiteral name =>
      dsimp only [] at h
      rw [pres_pure_bind] at h
      obtain ⟨rest, rfl⟩ := pyIndex_zero_ok h0
      cases hg : get_value_from_port m selfId name with
      | error e => rw [hg] at h; exact absurd h (by simp [pres_error_bind])
      | ok p =>
        obtain ⟨m1, vo⟩ := p
        rw [hg, pres_ok_bind] at h
        obtain ⟨ho1, n1, hn1, ha1, hip1, hwk1, hwn1⟩ := gv_frame hn hg
        cases vo with
        | none =>
          dsimp only [] at h
          rw [Except.ok.injEq, Prod.mk.injEq] at h
          obtain ⟨rfl, rfl⟩ := h
          refine ⟨ho1, n1, hn1, ha1, ?_, ?_, ?_⟩
          · intro _ hd
            exact absurd hd (by simp)
          · intro _ _ _
            exact ⟨hip1, name, rest, rfl⟩
          · intro hw _
            exact ⟨hwk1 hw, hip1⟩
        | some v =>
          dsimp only [] at h
          rw [getSelf_ok hn1, pres_ok_bind] at h
          cases h1 : dictFindNat n1.ast_real_instr_lookup n1.instruction_pointer with
          | none => rw [h1] at h; exact absurd h (by simp)
          | some real =>
            rw [h1] at h
            dsimp only [] at h
            cases h2 : pyIndex n1.ast_instr_real_lookup ((real : Int) + v - 1) with
            | error e => rw [h2] at h; exact absurd h (by simp [pres_error_bind])
            | ok newIp =>
              rw [h2, pres_ok_bind, Except.ok.injEq, Prod.mk.injEq] at h
              obtain ⟨rfl, rfl⟩ := h
              have hw1 : n1.wait_port = n.wait_port := gv_wait_eq_of_some rfl hwk1 hwn1
              refine ⟨others_trans ho1 (others_mupdate_self _ _ _), _,
                mlookup_mupdate_self _ hn1, ?_⟩
              exact di_post_done (by exact ha1) (by exact hw1) _
    | RegisterLiteral r =>
      dsimp only [] at h
      rw [getSelf_ok hn] at h
      dsimp only [] at h
      cases hv : pyIndex n.accs n.register_cursor with
      | error e =>
        rw [hv] at h
        exact absurd h (by simp [pres_pure_bind, pres_error_bind])
      | ok v =>
        rw [hv] at h
        dsimp only [] at h
        rw [pres_pure_bind, pres_ok_bind] at h
        dsimp only [] at h
        rw [getSelf_ok hn, pres_ok_bind] at h
        cases h1 : dictFindNat n.ast_real_instr_lookup n.instruction_pointer with
        | none => rw [h1] at h; exact absurd h (by simp)
        | some real =>
          rw [h1] at h
          dsimp only [] at h
          cases h2 : pyIndex n.ast_instr_real_lookup ((real : Int) + v - 1) with
          | error e => rw [h2] at h; exact absurd h (by simp [pres_error_bind])
          | ok newIp =>
            rw [h2, pres_ok_bind, Except.ok.injEq, Prod.mk.injEq] at h
            obtain ⟨rfl, rfl⟩ := h
            refine ⟨others_mupdate_self _ _ _, _, mlookup_mupdate_self _ hn, ?_⟩
            exact di_post_done (by rfl) (by rfl) args
    | Label s =>
      dsimp only [] at h
      rw [getSelf_ok hn] at h
      dsimp only [] at h
      cases hv : pyIndex n.accs n.register_cursor with
      | error e =>
        rw [hv] at h
        exact absurd h (by simp [pres_pure_bind, pres_error_bind])
      | ok v =>
        rw [hv] at h
        dsimp only [] at h
        rw [pres_pure_bind, pres_ok_bind] at h
        dsimp only [] at h
        rw [getSelf_ok hn, pres_ok_bind] at h
        cases h1 : dictFindNat n.ast_real_instr_lookup n.instruction_pointer with
        | none => rw [h1] at h; exact absurd h (by simp)
        | some real =>
          rw [h1] at h
          dsimp only [] at h
          cases h2 : pyIndex n.ast_instr_real_lookup ((real : Int) + v - 1) with
          | error e => rw [h2] at h; exact absurd h (by simp [pres_error_bind])
          | ok newIp =>
            rw [h2, pres_ok_bind, Except.ok.injEq, Prod.mk.injEq] at h
            obtain ⟨rfl, rfl⟩ := h
            refine ⟨others_mupdate_self _ _ _, _, mlookup_mupdate_self _ hn, ?_⟩
            exact di_post_done (by rfl) (by rfl) args
    | LabelReference s =>
      dsimp only [] at h
      rw [getSelf_ok hn] at h
      dsimp only [] at h
      cases hv : pyIndex n.accs n.register_cursor with
      | error e =>
        rw [hv] at h
        exact absurd h (by simp [pres_pure_bind, pres_error_bind])
      | ok v =>
        rw [hv] at h
        dsimp only [] at h
        rw [pres_pure_bind, pres_ok_bind] at h
        dsimp only [] at h
        rw [getSelf_ok hn, pres_ok_bind] at h
        cases h1 : dictFindNat n.ast_real_instr_lookup n.instruction_pointer with
        | none => rw [h1] at h; exact absurd h (by simp)
        | some real =>
          rw [h1] at h
          dsimp only [] at h
          cases h2 : pyIndex n.ast_instr_real_lookup ((real : Int) + v - 1) with
          | error e => rw [h2] at h; exact absurd h (by simp [pres_error_bind])
          | ok newIp =>
            rw [h2, pres_ok_bind, Except.ok.injEq, Prod.mk.injEq] at h
            obtain ⟨rfl, rfl⟩ := h
            refine ⟨others_mupdate_self _ _ _, _, mlookup_mupdate_self _ hn, ?_⟩
            exact di_post_done (by rfl) (by rfl) args
    | NArgumentInstruction op iargs =>
      dsimp only [] at h
      rw [getSelf_ok hn] at h
      dsimp only [] at h
      cases hv : pyIndex n.accs n.register_cursor with
      | error e =>
        rw [hv] at h
        exact absurd h (by simp [pres_pure_bind, pres_error_bind])
      | ok v =>
        rw [hv] at h
        dsimp only [] at h
        rw [pres_pure_bind, pres_ok_bind] at h
        dsimp only [] at h
        rw [getSelf_ok hn, pres_ok_bind] at h
        cases h1 : dictFindNat n.ast_real_instr_lookup n.instruction_pointer with
        | none => rw [h1] at h; exact absurd h (by simp)
        | some real =>
          rw [h1] at h
          dsimp only [] at h
          cases h2 : pyIndex n.ast_instr_real_lookup ((real : Int) + v - 1) with
          | error e => rw [h2] at h; exact absurd h (by simp [pres_error_bind])
          | ok newIp =>
            rw [h2, pres_ok_bind, Except.ok.injEq, Prod.mk.injEq] at h
            obtain ⟨rfl, rfl⟩ := h
            refine ⟨others_mupdate_self _ _ _, _, mlookup_mupdate_self _ hn, ?_⟩
            exact di_post_done (by rfl) (by rfl) args

theorem list_len_two {α : Type} {l : List α} (h : l.length = 2) :
    ∃ a b, l = [a, b] := by
  cases l with
  | nil => simp at h
  | cons a t =>
    cases t with
    | nil => simp at h
    | cons b t2 =>
      cases t2 with
      | nil => exact ⟨a, b, rfl⟩
      | cons c t3 => simp at h

theorem instr_mov_frame {m m' : Machine} {selfId : Int} {args : List ASTNode}
    {done : Bool} {n : TISNode}
    (hn : mlookup m selfId = some n)
    (h : instr_mov m selfId args = .ok (m', done)) :
    others selfId m m' ∧ ∃ n', mlookup m' selfId = some n' ∧ di_post n n' done args := by
  rw [instr_mov] at h
  by_cases hlen : args.length ≠ 2
  · rw [if_pos hlen] at h
    exact absurd h (by simp)
  · rw [if_neg hlen] at h
    push_neg at hlen
    obtain ⟨a0, a1, rfl⟩ := list_len_two hlen
    rw [pyIndex_zero_cons, pres_ok_bind, pyIndex_one_cons, pres_ok_bind] at h
    cases a0 with
    | IntegerLiteral v =>
      dsimp only [] at h
      rw [pres_pure_bind, pres_ok_bind] at h
      dsimp only [] at h
      rw [if_neg (by simp)] at h
      cases a1 with
      | PortLiteral name =>
        dsimp only [] at h
        have haw := set_value_to_port_awf h
        obtain ⟨n', hn', ha', hip', hw'⟩ := awf_self_node haw hn
        exact ⟨awf_others haw _, n', hn', di_post_keep ha' hip' hw' _ _⟩
      | RegisterLiteral r =>
        dsimp only [] at h
        rw [getSelf_ok hn, pres_ok_bind] at h
        cases h2 : pySetIdx n.accs n.register_cursor v with
        | error e => rw [h2] at h; exact absurd h (by simp [pres_error_bind])
        | ok accs' =>
          rw [h2, pres_ok_bind, Except.ok.injEq, Prod.mk.injEq] at h
          obtain ⟨rfl, rfl⟩ := h
          exact frame_of_mupdate_keep hn (fun x => { x with accs := accs' })
            (fun _ => rfl) (fun _ => rfl) (fun _ => rfl) _ _
      | IntegerLiteral w =>
        dsimp only [] at h
        rw [Except.ok.injEq, Prod.mk.injEq] at h
        obtain ⟨rfl, rfl⟩ := h
        exact ⟨others_refl _ _, n, hn, di_post_keep rfl rfl rfl _ _⟩
      | Label s =>
        dsimp only [] at h
        rw [Except.ok.injEq, Prod.mk.injEq] at h
        obtain ⟨rfl, rfl⟩ := h
        exact ⟨others_refl _ _, n, hn, di_post_keep rfl rfl rfl _ _⟩
      | LabelReference s =>
        dsimp only [] at h
        rw [Except.ok.injEq, Prod.mk.injEq] at h
        obtain ⟨rfl, rfl⟩ := h
        exact ⟨others_refl _ _, n, hn, di_post_keep rfl rfl rfl _ _⟩
      | NArgumentInstruction op iargs =>
        dsimp only [] at h
        rw [Except.ok.injEq, Prod.mk.injEq] at h
        obtain ⟨rfl, rfl⟩ := h
        exact ⟨others_refl _ _, n, hn, di_post_keep rfl rfl rfl _ _⟩
    | PortLiteral name =>
      dsimp only [] at h
      cases hg : get_value_from_port m selfId name with
      | error e =>
        rw [hg] at h
        exact absurd h (by simp [pres_pure_bind, pres_error_bind])
      | ok p =>
        obtain ⟨m1, vo⟩ := p
        rw [hg] at h
        dsimp only [] at h
        rw [pres_pure_bind, pres_ok_bind] at h
        dsimp only [] at h
        obtain ⟨ho1, n1, hn1, ha1, hip1, hwk1, hwn1⟩ := gv_frame hn hg
        cases vo with
        | none =>
          rw [if_pos rfl] at h
          rw [Except.ok.injEq, Prod.mk.injEq] at h
          obtain ⟨rfl, rfl⟩ := h
          refine ⟨ho1, n1, hn1, ha1, ?_, ?_, ?_⟩
          · intro _ hd
            exact absurd hd (by simp)
          · intro _ _ _
            exact ⟨hip1, name, [a1], rfl⟩
          · intro hw _
            exact ⟨hwk1 hw, hip1⟩
        | some v =>
          rw [if_neg (by simp)] at h
          have hw1 : n1.wait_port = n.wait_port := gv_wait_eq_of_some rfl hwk1 hwn1
          cases a1 with
          | PortLiteral name2 =>
            dsimp only [] at h
            have haw := set_value_to_port_awf h
            obtain ⟨n2, hn2, ha2, hip2, hw2⟩ := awf_self_node haw hn1
            refine ⟨others_trans ho1 (awf_others haw _), n2, hn2,
              ha2.trans ha1, ?_, ?_, ?_⟩
            · intro hq _
              rw [hw2, hw1, hq]
            · intro hq _ hne
              rw [hw2, hw1, hq] at hne
              exact absurd rfl hne
            · intro hq _
              exact ⟨hw2.trans hw1, hip2.trans hip1⟩
          | RegisterLiteral r =>
            dsimp only [] at h
            rw [getSelf_ok hn1, pres_ok_bind] at h
            cases h2 : pySetIdx n1.accs n1.register_cursor v with
            | error e => rw [h2] at h; exact absurd h (by simp [pres_error_bind])
            | ok accs' =>
              rw [h2, pres_ok_bind, Except.ok.injEq, Prod.mk.injEq] at h
              obtain ⟨rfl, rfl⟩ := h
              refine ⟨others_trans ho1 (others_mupdate_self _ _ _), _,
                mlookup_mupdate_self _ hn1, ?_⟩
              exact di_post_done (by exact ha1) (by exact hw1) _
          | IntegerLiteral w =>
            dsimp only [] at h
            rw [Except.ok.injEq, Prod.mk.injEq] at h
            obtain ⟨rfl, rfl⟩ := h
            refine ⟨ho1, n1, hn1, ha1, ?_, ?_, ?_⟩
            · intro _ hd
              exact absurd hd (by simp)
            · intro hq _ hne
              rw [hw1, hq] at hne
              exact absurd rfl hne
            · intro hq _
              exact ⟨hwk1 hq, hip1⟩
          | Label s =>
            dsimp only [] at h
            rw [Except.ok.injEq, Prod.mk.injEq] at h
            obtain ⟨rfl, rfl⟩ := h
            refine ⟨ho1, n1, hn1, ha1, ?_, ?_, ?_⟩
            · intro _ hd
              exact absurd hd (by simp)
            · intro hq _ hne
              rw [hw1, hq] at hne
              exact absurd rfl hne
            · intro hq _
              exact ⟨hwk1 hq, hip1⟩
          | LabelReference s =>
            dsimp only [] at h
            rw [Except.ok.injEq, Prod.mk.injEq] at h
            obtain ⟨rfl, rfl⟩ := h
            refine ⟨ho1, n1, hn1, ha1, ?_, ?_, ?_⟩
            · intro _ hd
              exact absurd hd (by simp)
            · intro hq _ hne
              rw [hw1, hq] at hne
              exact absurd rfl hne
            · intro hq _
              exact ⟨hwk1 hq, hip1⟩
          | NArgumentInstruction op iargs =>
            dsimp only [] at h
            rw [Except.ok.injEq, Prod.mk.injEq] at h
            obtain ⟨rfl, rfl⟩ := h
            refine ⟨ho1, n1, hn1, ha1, ?_, ?_, ?_⟩
            · intro _ hd
              exact absurd hd (by simp)
            · intro hq _ hne
              rw [hw1, hq] at hne
              exact absurd rfl hne
            · intro hq _
              exact ⟨hwk1 hq, hip1⟩
    | RegisterLiteral r0 =>
      dsimp only [] at h
      rw [getSelf_ok hn] at h
      dsimp only [] at h
      cases hv : pyIndex n.accs n.register_cursor with
      | error e =>
        rw [hv] at h
        exact absurd h (by simp [pres_pure_bind, pres_error_bind])
      | ok v =>
        rw [hv] at h
        dsimp only [] at h
        rw [pres_pure_bind, pres_ok_bind] at h
        dsimp only [] at h
        rw [if_neg (by simp)] at h
        cases a1 with
        | PortLiteral name =>
          dsimp only [] at h
          have haw := set_value_to_port_awf h
          obtain ⟨n', hn', ha', hip', hw'⟩ := awf_self_node haw hn
          exact ⟨awf_others haw _, n', hn', di_post_keep ha' hip' hw' _ _⟩
        | RegisterLiteral r =>
          dsimp only [] at h
          rw [getSelf_ok hn, pres_ok_bind] at h
          cases h2 : pySetIdx n.accs n.register_cursor v with
          | error e => rw [h2] at h; exact absurd h (by simp [pres_error_bind])
          | ok accs' =>
            rw [h2, pres_ok_bind, Except.ok.injEq, Prod.mk.injEq] at h
            obtain ⟨rfl, rfl⟩ := h
            exact frame_of_mupdate_keep hn (fun x => { x with accs := accs' })
              (fun _ => rfl) (fun _ => rfl) (fun _ => rfl) _ _
        | IntegerLiteral w =>
          dsimp only [] at h
          rw [Except.ok.injEq, Prod.mk.injEq] at h
          obtain ⟨rfl, rfl⟩ := h
          exact ⟨others_refl _ _, n, hn, di_post_keep rfl rfl rfl _ _⟩
        | Label s =>
          dsimp only [] at h
          rw [Except.ok.injEq, Prod.mk.injEq] at h
          obtain ⟨rfl, rfl⟩ := h
          exact ⟨others_refl _ _, n, hn, di_post_keep rfl rfl rfl _ _⟩
        | LabelReference s =>
          dsimp only [] at h
          rw [Except.ok.injEq, Prod.mk.injEq] at h
          obtain ⟨rfl, rfl⟩ := h
          exact ⟨others_refl _ _, n, hn, di_post_keep rfl rfl rfl _ _⟩
        | NArgumentInstruction op iargs =>
          dsimp only [] at h
          rw [Except.ok.injEq, Prod.mk.injEq] at h
          obtain ⟨rfl, rfl⟩ := h
          exact ⟨others_refl _ _, n, hn, di_post_keep rfl rfl rfl _ _⟩
    | Label s0 =>
      dsimp only [] at h
      rw [pres_pure_bind, pres_ok_bind] at h
      dsimp only [] at h
      rw [if_neg (by simp)] at h
      cases a1 with
      | PortLiteral name => dsimp only [] at h; exact absurd h (by simp)
      | RegisterLiteral r => dsimp only [] at h; exact absurd h (by simp)
      | IntegerLiteral w =>
        dsimp only [] at h
        rw [Except.ok.injEq, Prod.mk.injEq] at h
        obtain ⟨rfl, rfl⟩ := h
        exact ⟨others_refl _ _, n, hn, di_post_keep rfl rfl rfl _ _⟩
      | Label s =>
        dsimp only [] at h
        rw [Except.ok.injEq, Prod.mk.injEq] at h
        obtain ⟨rfl, rfl⟩ := h
        exact ⟨others_refl _ _, n, hn, di_post_keep rfl rfl rfl _ _⟩
      | LabelReference s =>
        dsimp only [] at h
        rw [Except.ok.injEq, Prod.mk.injEq] at h
        obtain ⟨rfl, rfl⟩ := h
        exact ⟨others_refl _ _, n, hn, di_post_keep rfl rfl rfl _ _⟩
      | NArgumentInstruction op iargs =>
        dsimp only [] at h
        rw [Except.ok.injEq, Prod.mk.injEq] at h
        obtain ⟨rfl, rfl⟩ := h
        exact ⟨others_refl _ _, n, hn, di_post_keep rfl rfl rfl _ _⟩
    | LabelReference s0 =>
      dsimp only [] at h
      rw [pres_pure_bind, pres_ok_bind] at h
      dsimp only [] at h
      rw [if_neg (by simp)] at h
      cases a1 with
      | PortLiteral name => dsimp only [] at h; exact absurd h (by simp)
      | RegisterLiteral r => dsimp only [] at h; exact absurd h (by simp)
      | IntegerLiteral w =>
        dsimp only [] at h
        rw [Except.ok.injEq, Prod.mk.injEq] at h
        obtain ⟨rfl, rfl⟩ := h
        exact ⟨others_refl _ _, n, hn, di_post_keep rfl rfl rfl _ _⟩
      | Label s =>
        dsimp only [] at h
        rw [Except.ok.injEq, Prod.mk.injEq] at h
        obtain ⟨rfl, rfl⟩ := h
        exact ⟨others_refl _ _, n, hn, di_post_keep rfl rfl rfl _ _⟩
      | LabelReference s =>
        dsimp only [] at h
        rw [Except.ok.injEq, Prod.mk.injEq] at h
        obtain ⟨rfl, rfl⟩ := h
        exact ⟨others_refl _ _, n, hn, di_post_keep rfl rfl rfl _ _⟩
      | NArgumentInstruction op iargs =>
        dsimp only [] at h
        rw [Except.ok.injEq, Prod.mk.injEq] at h
        obtain ⟨rfl, rfl⟩ := h
        exact ⟨others_refl _ _, n, hn, di_post_keep rfl rfl rfl _ _⟩
    | NArgumentInstruction op0 iargs0 =>
      dsimp only [] at h
      rw [pres_pure_bind, pres_ok_bind] at h
      dsimp only [] at h
      rw [if_neg (by simp)] at h
      cases a1 with
      | PortLiteral name => dsimp only [] at h; exact absurd h (by simp)
      | RegisterLiteral r => dsimp only [] at h; exact absurd h (by simp)
      | IntegerLiteral w =>
        dsimp only [] at h
        rw [Except.ok.injEq, Prod.mk.injEq] at h
        obtain ⟨rfl, rfl⟩ := h
        exact ⟨others_refl _ _, n, hn, di_post_keep rfl rfl rfl _ _⟩
      | Label s =>
        dsimp only [] at h
        rw [Except.ok.injEq, Prod.mk.injEq] at h
        obtain ⟨rfl, rfl⟩ := h
        exact ⟨others_refl _ _, n, hn, di_post_keep rfl rfl rfl _ _⟩
      | LabelReference s =>
        dsimp only [] at h
        rw [Except.ok.injEq, Prod.mk.injEq] at h
        obtain ⟨rfl, rfl⟩ := h
        exact ⟨others_refl _ _, n, hn, di_post_keep rfl rfl rfl _ _⟩
      | NArgumentInstruction op iargs =>
        dsimp only [] at h
        rw [Except.ok.injEq, Prod.mk.injEq] at h
        obtain ⟨rfl, rfl⟩ := h
        exact ⟨others_refl _ _, n, hn, di_post_keep rfl rfl rfl _ _⟩

/-- The `do_instr`-level postcondition used by the step lemma. -/
def do_post (n n' : TISNode) (done : Bool) (nd : ASTNode) : Prop :=
  n'.ast = n.ast ∧
  (n.wait_port = none → done = true → n'.wait_port = none) ∧
  (n.wait_port = none → done = false → n'.wait_port ≠ none →
    n'.instruction_pointer = n.instruction_pointer ∧ readsPortInstr nd) ∧
  (n.wait_port ≠ none → done = false →
    n'.wait_port = n.wait_port ∧ n'.instruction_pointer = n.instruction_pointer)

theorem di_to_do_port {n n' : TISNode} {done : Bool} {op : String}
    {args : List ASTNode}
    (hop : op = "mov" ∨ op = "add" ∨ op = "sub" ∨ op = "swt" ∨ op = "jro")
    (hd : di_post n n' done args) :
    do_post n n' done (.NArgumentInstruction op args) := by
  obtain ⟨h1, h2, h3, h4⟩ := hd
  refine ⟨h1, h2, ?_, h4⟩
  intro hq hdn hne
  obtain ⟨hip, p, rest, hargs⟩ := h3 hq hdn hne
  exact ⟨hip, op, p, rest, by rw [hargs], hop⟩

theorem di_to_do_done {n n' : TISNode} {nd : ASTNode} {args : List ASTNode}
    (hd : di_post n n' true args) : do_post n n' true nd := by
  obtain ⟨h1, h2, _, _⟩ := hd
  exact ⟨h1, fun hq _ => h2 hq rfl, fun _ hdn => absurd hdn (by simp),
    fun _ hdn => absurd hdn (by simp)⟩

theorem do_instr_frame {m m' : Machine} {selfId : Int} {nd : ASTNode}
    {done : Bool} {n : TISNode}
    (hn : mlookup m selfId = some n)
    (h : do_instr m selfId nd = .ok (m', done)) :
    others selfId m m' ∧ ∃ n', mlookup m' selfId = some n' ∧
      do_post n n' done nd := by
  cases nd with
  | NArgumentInstruction op args =>
    simp only [do_instr] at h
    by_cases e1 : op = "mov"
    · subst e1
      rw [if_pos rfl] at h
      obtain ⟨ho, n', hn', hd⟩ := instr_mov_frame hn h
      exact ⟨ho, n', hn', di_to_do_port (Or.inl rfl) hd⟩
    · rw [if_neg e1] at h
      by_cases e2 : op = "add"
      · subst e2
        rw [if_pos rfl] at h
        obtain ⟨ho, n', hn', hd⟩ := instr_add_frame hn h
        exact ⟨ho, n', hn', di_to_do_port (Or.inr (Or.inl rfl)) hd⟩
      · rw [if_neg e2] at h
        by_cases e3 : op = "sub"
        · subst e3
          rw [if_pos rfl] at h
          obtain ⟨ho, n', hn', hd⟩ := instr_sub_frame hn h
          exact ⟨ho, n', hn', di_to_do_port (Or.inr (Or.inr (Or.inl rfl))) hd⟩
        · rw [if_neg e3] at h
          by_cases e4 : op = "sav"
          · subst e4
            rw [if_pos rfl] at h
            obtain ⟨hdone, ho, n', hn', hd⟩ := instr_sav_frame hn h
            subst hdone
            exact ⟨ho, n', hn', di_to_do_done hd⟩
          · rw [if_neg e4] at h
            by_cases e5 : op = "swt"
            · subst e5
              rw [if_pos rfl] at h
              obtain ⟨ho, n', hn', hd⟩ := instr_swt_frame hn h
              exact ⟨ho, n', hn',
                di_to_do_port (Or.inr (Or.inr (Or.inr (Or.inl rfl)))) hd⟩
            · rw [if_neg e5] at h
              by_cases e6 : op = "swp"
              · subst e6
                rw [if_pos rfl] at h
                obtain ⟨hdone, ho, n', hn', hd⟩ := instr_swp_frame hn h
                subst hdone
                exact ⟨ho, n', hn', di_to_do_done hd⟩
              · rw [if_neg e6] at h
                by_cases e7 : op = "neg"
                · subst e7
                  rw [if_pos rfl] at h
                  obtain ⟨hdone, ho, n', hn', hd⟩ := instr_neg_frame hn h
                  subst hdone
                  exact ⟨ho, n', hn', di_to_do_done hd⟩
                · rw [if_neg e7] at h
                  by_cases e8 : op = "nop"
                  · subst e8
                    rw [if_pos rfl] at h
                    obtain ⟨hdone, ho, n', hn', hd⟩ := instr_nop_frame hn h
                    subst hdone
                    exact ⟨ho, n', hn', di_to_do_done hd⟩
                  · rw [if_neg e8] at h
                    by_cases e9 : op = "jmp"
                    · subst e9
                      rw [if_pos rfl] at h
                      obtain ⟨hdone, ho, n', hn', hd, _⟩ := instr_jmp_frame hn h
                      subst hdone
                      exact ⟨ho, n', hn', di_to_do_done hd⟩
                    · rw [if_neg e9] at h
                      by_cases e10 : op = "jez"
                      · subst e10
                        rw [if_pos rfl] at h
                        obtain ⟨hdone, ho, n', hn', hd⟩ := instr_jez_frame hn h
                        subst hdone
                        exact ⟨ho, n', hn', di_to_do_done hd⟩
                      · rw [if_neg e10] at h
                        by_cases e11 : op = "jnz"
                        · subst e11
                          rw [if_pos rfl] at h
                          obtain ⟨hdone, ho, n', hn', hd⟩ := instr_jnz_frame hn h
                          subst hdone
                          exact ⟨ho, n', hn', di_to_do_done hd⟩
                        · rw [if_neg e11] at h
                          by_cases e12 : op = "jgz"
                          · subst e12
                            rw [if_pos rfl] at h
                            obtain ⟨hdone, ho, n', hn', hd⟩ := instr_jgz_frame hn h
                            subst hdone
                            exact ⟨ho, n', hn', di_to_do_done hd⟩
                          · rw [if_neg e12] at h
                            by_cases e13 : op = "jlz"
                            · subst e13
                              rw [if_pos rfl] at h
                              obtain ⟨hdone, ho, n', hn', hd⟩ := instr_jlz_frame hn h
                              subst hdone
                              exact ⟨ho, n', hn', di_to_do_done hd⟩
                            · rw [if_neg e13] at h
                              by_cases e14 : op = "jro"
                              · subst e14
                                rw [if_pos rfl] at h
                                obtain ⟨ho, n', hn', hd⟩ := instr_jro_frame hn h
                                exact ⟨ho, n', hn', di_to_do_port
                                  (Or.inr (Or.inr (Or.inr (Or.inr rfl)))) hd⟩
                              · rw [if_neg e14] at h
                                exact absurd h (by simp)
  | IntegerLiteral v => exact absurd h (by simp [do_instr])
  | PortLiteral p => exact absurd h (by simp [do_instr])
  | RegisterLiteral r => exact absurd h (by simp [do_instr])
  | Label s => exact absurd h (by simp [do_instr])
  | LabelReference s => exact absurd h (by simp [do_instr])

theorem getSelf_eq_ok {m : Machine} {id : Int} {n : TISNode}
    (h : getSelf m id = .ok n) : mlookup m id = some n := by
  rw [getSelf] at h
  cases hq : mlookup m id with
  | none => rw [hq] at h; exact absurd h (by simp)
  | some x =>
    rw [hq] at h
    rw [Except.ok.injEq] at h
    rw [h]

theorem incr_wait (x : TISNode) :
    (incr_instr_pointer x).wait_port = x.wait_port := by
  rw [incr_instr_pointer]
  split <;> rfl

theorem incr_ast (x : TISNode) : (incr_instr_pointer x).ast = x.ast := by
  rw [incr_instr_pointer]
  split <;> rfl

/-- Nodes other than the stepped one keep satisfying the invariant through
an `others`-framed machine change. -/
theorem WaitInv_transfer {m m1 : Machine} {selfId : Int}
    (hInv : WaitInv m) (ho : others selfId m m1) :
    ∀ id x, id ≠ selfId → mlookup m1 id = some x → x.wait_port ≠ none →
      ∃ nd, currentStatement x = some nd ∧ readsPortInstr nd := by
  intro id x hid hx hwx
  have hp := ho id hid
  rw [hx] at hp
  cases hy : mlookup m id with
  | none => rw [hy] at hp; exact absurd hp (by simp)
  | some y =>
    rw [hy] at hp
    have h3 : proj3 x = proj3 y := by simpa using hp
    rw [proj3, proj3, Prod.mk.injEq, Prod.mk.injEq] at h3
    obtain ⟨ha, hip, hwq⟩ := h3
    obtain ⟨nd, hc, hr⟩ := hInv id y hy (by rw [← hwq]; exact hwx)
    refine ⟨nd, ?_, hr⟩
    rw [currentStatement, ha, hip]
    exact hc

theorem step_fuel_WaitInv : ∀ (fuel : Nat) {m m' : Machine} {selfId : Int},
    WaitInv m → step_fuel fuel m selfId = .ok m' → WaitInv m' := by
  intro fuel
  induction fuel with
  | zero =>
    intro m m' selfId _ h
    exact absurd h (by simp [step_fuel])
  | succ f ih =>
    intro m m' selfId hInv h
    rw [step_fuel] at h
    cases hgs : getSelf m selfId with
    | error e => rw [hgs] at h; exact absurd h (by simp [pres_error_bind])
    | ok self =>
      have hself : mlookup m selfId = some self := getSelf_eq_ok hgs
      rw [hgs, pres_ok_bind] at h
      cases hcu : self.ast.get? self.instruction_pointer with
      | none => rw [hcu] at h; exact absurd h (by simp [pres_error_bind])
      | some nd =>
        rw [hcu] at h
        dsimp only [] at h
        rw [pres_pure_bind] at h
        cases hwb : self.wait_port.isSome with
        | true =>
          have hwn : self.wait_port ≠ none := by
            intro hq
            rw [hq] at hwb
            simp at hwb
          rw [hwb, if_pos rfl] at h
          cases hsb : self.sent_value.isSome with
          | false =>
            rw [hsb] at h
            simp only [Bool.false_eq_true, if_false] at h
            rw [Except.ok.injEq] at h
            rw [← h]
            exact hInv
          | true =>
            rw [hsb, if_pos rfl] at h
            cases hdi : do_instr m selfId nd with
            | error e => rw [hdi] at h; exact absurd h (by simp [pres_error_bind])
            | ok p =>
              obtain ⟨m1, done⟩ := p
              rw [hdi, pres_ok_bind] at h
              dsimp only [] at h
              obtain ⟨ho, n1, hn1, hdp⟩ := do_instr_frame hself hdi
              cases done with
              | true =>
                rw [if_pos rfl, Except.ok.injEq] at h
                subst h
                intro id x hx hwx
                by_cases hid : id = selfId
                · subst hid
                  rw [incr_m, mlookup_mupdate_self _ (mlookup_mupdate_self _ hn1)] at hx
                  rw [Option.some.injEq] at hx
                  subst hx
                  rw [incr_wait] at hwx
                  exact absurd rfl hwx
                · rw [incr_m, mlookup_mupdate_ne _ hid, mlookup_mupdate_ne _ hid] at hx
                  exact WaitInv_transfer hInv ho id x hid hx hwx
              | false =>
                rw [if_neg (by simp), Except.ok.injEq] at h
                subst h
                intro id x hx hwx
                by_cases hid : id = selfId
                · subst hid
                  rw [hn1, Option.some.injEq] at hx
                  subst hx
                  obtain ⟨hwq, hipq⟩ := hdp.2.2.2 hwn rfl
                  obtain ⟨nd0, hc, hr⟩ := hInv _ self hself hwn
                  refine ⟨nd0, ?_, hr⟩
                  rw [currentStatement, hdp.1, hipq]
                  exact hc
                · exact WaitInv_transfer hInv ho id x hid hx hwx
        | false =>
          have hwn : self.wait_port = none := by
            cases hq : self.wait_port
            · rfl
            · rw [hq] at hwb; simp at hwb
          rw [hwb] at h
          simp only [Bool.false_eq_true, if_false] at h
          cases hpb : self.port_value.isSome with
          | true =>
            rw [hpb, if_pos rfl] at h
            cases hdi : do_instr m selfId nd with
            | error e => rw [hdi] at h; exact absurd h (by simp [pres_error_bind])
            | ok p =>
              obtain ⟨m1, done⟩ := p
              rw [hdi, pres_ok_bind] at h
              dsimp only [] at h
              obtain ⟨ho, n1, hn1, hdp⟩ := do_instr_frame hself hdi
              cases done with
              | true =>
                rw [if_pos rfl, Except.ok.injEq] at h
                subst h
                intro id x hx hwx
                by_cases hid : id = selfId
                · subst hid
                  rw [incr_m, mlookup_mupdate_self _ (mlookup_mupdate_self _ hn1)] at hx
                  rw [Option.some.injEq] at hx
                  subst hx
                  rw [incr_wait] at hwx
                  have : n1.wait_port = none := hdp.2.1 hwn rfl
                  exact absurd this hwx
                · rw [incr_m, mlookup_mupdate_ne _ hid, mlookup_mupdate_ne _ hid] at hx
                  exact WaitInv_transfer hInv ho id x hid hx hwx
              | false =>
                rw [if_neg (by simp), Except.ok.injEq] at h
                subst h
                intro id x hx hwx
                by_cases hid : id = selfId
                · subst hid
                  rw [hn1, Option.some.injEq] at hx
                  subst hx
                  obtain ⟨hipq, hrp⟩ := hdp.2.2.1 hwn rfl hwx
                  refine ⟨nd, ?_, hrp⟩
                  rw [currentStatement, hdp.1, hipq]
                  exact hcu
                · exact WaitInv_transfer hInv ho id x hid hx hwx
          | false =>
            rw [hpb] at h
            simp only [Bool.false_eq_true, if_false] at h
            cases nd with
            | NArgumentInstruction op iargs =>
              cases hdi : do_instr m selfId (.NArgumentInstruction op iargs) with
              | error e => rw [hdi] at h; exact absurd h (by simp [pres_error_bind])
              | ok p =>
                obtain ⟨m1, done⟩ := p
                rw [hdi, pres_ok_bind] at h
                dsimp only [] at h
                obtain ⟨ho, n1, hn1, hdp⟩ := do_instr_frame hself hdi
                cases done with
                | true =>
                  rw [if_pos rfl, Except.ok.injEq] at h
                  subst h
                  intro id x hx hwx
                  by_cases hid : id = selfId
                  · subst hid
                    rw [incr_m, mlookup_mupdate_self _ hn1, Option.some.injEq] at hx
                    subst hx
                    rw [incr_wait] at hwx
                    have : n1.wait_port = none := hdp.2.1 hwn rfl
                    exact absurd this hwx
                  · rw [incr_m, mlookup_mupdate_ne _ hid] at hx
                    exact WaitInv_transfer hInv ho id x hid hx hwx
                | false =>
                  rw [if_neg (by simp), Except.ok.injEq] at h
                  subst h
                  intro id x hx hwx
                  by_cases hid : id = selfId
                  · subst hid
                    rw [hn1, Option.some.injEq] at hx
                    subst hx
                    obtain ⟨hipq, hrp⟩ := hdp.2.2.1 hwn rfl hwx
                    refine ⟨.NArgumentInstruction op iargs, ?_, hrp⟩
                    rw [currentStatement, hdp.1, hipq]
                    exact hcu
                  · exact WaitInv_transfer hInv ho id x hid hx hwx
            | Label s =>
              refine ih ?_ h
              intro id x hx hwx
              by_cases hid : id = selfId
              · subst hid
                rw [incr_m, mlookup_mupdate_self _ hself, Option.some.injEq] at hx
                subst hx
                rw [incr_wait] at hwx
                exact absurd hwn hwx
              · rw [incr_m, mlookup_mupdate_ne _ hid] at hx
                exact hInv id x hx hwx
            | IntegerLiteral v => exact absurd h (by simp)
            | PortLiteral pn => exact absurd h (by simp)
            | RegisterLiteral r => exact absurd h (by simp)
            | LabelReference s => exact absurd h (by simp)

theorem step_WaitInv {m m' : Machine} {selfId : Int}
    (hInv : WaitInv m) (h : step m selfId = .ok m') : WaitInv m' :=
  step_fuel_WaitInv python_recursion_limit hInv h

theorem run_WaitInv : ∀ (ids : List Int) {m m' : Machine},
    WaitInv m → run ids m = .ok m' → WaitInv m' := by
  intro ids
  induction ids with
  | nil =>
    intro m m' hInv h
    obtain rfl : m = m' := Except.ok.inj h
    exact hInv
  | cons i rest ih =>
    intro m m' hInv h
    rw [run, List.foldlM_cons] at h
    cases hs : step m i with
    | error e => rw [hs] at h; exact absurd h (by simp [pres_error_bind])
    | ok m1 =>
      rw [hs, pres_ok_bind] at h
      exact ih (step_WaitInv hInv hs) h

/-- A machine fresh out of construction: no node is waiting
(`TISNode.__init__` sets `wait_port = None`). -/
def InitOK (m : Machine) : Prop :=
  ∀ id n, mlookup m id = some n → n.wait_port = none

theorem InitOK_WaitInv {m : Machine} (h : InitOK m) : WaitInv m :=
  fun id n hn hw => absurd (h id n hn) hw

/-- Claim C2, amended: in every state reachable by any sequence of `step`
calls from a freshly constructed grid, a node with both `pendingReceive`
(`wait_port`) and `pendingSend` (`port_value`) set is parked on a
port-reading instruction (`mov` with a port source, or `add`/`sub`/`swt`/
`jro` with a port operand) — e.g. a port-to-port `mov` whose receive
completed but whose send is still pending, or a port read issued while an
already-delivered send had not yet been consumed.  Outside those
situations at most one of the two fields is set. -/
theorem C2_amended_both_set_only_on_port_reading_instruction
    (m0 m : Machine) (ids : List Int)
    (hinit : InitOK m0) (hrun : run ids m0 = .ok m)
    (id : Int) (n : TISNode) (hn : mlookup m id = some n)
    (hw : n.wait_port ≠ none) (_hp : n.port_value ≠ none) :
    ∃ nd, currentStatement n = some nd ∧ readsPortInstr nd :=
  run_WaitInv ids (InitOK_WaitInv hinit) hrun id n hn hw

def c2_final : Machine :=
  match run [5, 0, 0] c2_m0 with
  | .ok m => m
  | .error _ => []

def c2_final_node0 : TISNode :=
  match mlookup c2_final 0 with
  | some n => n
  | none => defaultNode

set_option maxHeartbeats 2000000 in
theorem c2_run_final : run [5, 0, 0] c2_m0 = .ok c2_final := rfl

set_option maxHeartbeats 2000000 in
theorem c2_final_lookup : mlookup c2_final 0 = some c2_final_node0 := rfl

set_option maxHeartbeats 2000000 in
theorem c2_final_node0_wait : c2_final_node0.wait_port = some "UP" := rfl

set_option maxHeartbeats 2000000 in
theorem c2_final_node0_pv : c2_final_node0.port_value = some ("DOWN", 5) := rfl

theorem c2_m0_InitOK : InitOK c2_m0 := by
  intro id n hn
  rw [c2_m0] at hn
  by_cases h0 : (0 : Int) = id
  · rw [show mlookup [((0 : Int), c2_node0), ((5 : Int), c2_node5)] id =
        some c2_node0 from by rw [mlookup, if_pos h0]] at hn
    rw [Option.some.injEq] at hn
    rw [← hn]
    rfl
  · by_cases h5 : (5 : Int) = id
    · rw [show mlookup [((0 : Int), c2_node0), ((5 : Int), c2_node5)] id =
          some c2_node5 from by rw [mlookup, if_neg h0, mlookup, if_pos h5]] at hn
      rw [Option.some.injEq] at hn
      rw [← hn]
      rfl
    · rw [show mlookup [((0 : Int), c2_node0), ((5 : Int), c2_node5)] id =
          none from by rw [mlookup, if_neg h0, mlookup, if_neg h5, mlookup]] at hn
      exact absurd hn (by simp)

/-- Witness for the amended C2 at the counterexample trace: the node with
both fields set is indeed parked on the port-reading `add up`. -/
theorem C2_amended_both_set_only_on_port_reading_instruction_witness :
    ∃ nd, currentStatement c2_final_node0 = some nd ∧ readsPortInstr nd :=
  C2_amended_both_set_only_on_port_reading_instruction c2_m0 c2_final [5, 0, 0]
    c2_m0_InitOK c2_run_final 0 c2_final_node0 c2_final_lookup
    (by rw [c2_final_node0_wait]; simp)
    (by rw [c2_final_node0_pv]; simp)

/- ===== Lexer (src/tis_lexer.py) ===== -/

inductive TokKind where
  | INSTRUCTION
  | REGISTER
  | INTEGER
  | PORT
  | NODE_SPECIFIER
  | SEPARATOR
  | LABEL
  | LABEL_REF
  | WHITESPACE
  | COMMENT
deriving DecidableEq, Repr

inductive TokenValue where
  | str (s : String)
  | int (i : Int)
deriving DecidableEq, Repr

/-- The converter component of a `TokenDef` (the lambdas / `int` / `None`
of the Python rule table). -/
inductive Converter where
  | toStr (s : String)
  | toInt
  | nodeSpec
  | dropColon
  | identity
  | noneConv
deriving DecidableEq, Repr

/-- The character class shared by the `LABEL` and `LABEL_REF` rules:
`[0-9a-zA-z~\x60$%^&*()_\-+={\x7d\[\]|\;.?/<>]` with quotes — digits,
the ASCII range `A`–`z` (which covers the letters and `[ \ ] ^ _` and the
backtick), and the listed symbols, given here by character code. -/
def labelChar (c : Char) : Bool :=
  c.isDigit || (65 ≤ c.toNat && c.toNat ≤ 122) ||
    c.toNat ∈ [126, 96, 36, 37, 94, 38, 42, 40, 41, 95, 45, 43, 61, 123, 125,
      91, 93, 124, 92, 59, 39, 34, 60, 62, 46, 63, 47]

/-- The `COMMENT` rule's class is the same plus the space character. -/
def commentChar (c : Char) : Bool :=
  c = ' ' || labelChar c

inductive Matcher where
  | str (pattern : String)
  | regexInteger
  | regexNodeSpecifier
  | regexSeparator
  | regexLabel
  | regexLabelRef
  | regexWhitespace
  | regexComment
deriving DecidableEq, Repr

/-- A string rule: `match_text.lower().startswith(pattern)`; on success the
match value is the pattern itself. -/
def strMatch (pattern : String) (cs : List Char) : Option (List Char) :=
  if (cs.map Char.toLower).take pattern.length = pattern.toList then
    some pattern.toList
  else none

/-- `(-?([1-9])([0-9]*))|(0)` with the regex engine's leftmost-alternation
and greedy semantics. -/
def matchInteger : List Char → Option (List Char)
  | '-' :: c :: rest =>
    if c.isDigit ∧ c ≠ '0' then some ('-' :: c :: rest.takeWhile Char.isDigit)
    else none
  | c :: rest =>
    if c.isDigit ∧ c ≠ '0' then some (c :: rest.takeWhile Char.isDigit)
    else if c = '0' then some ['0'] else none
  | [] => none

/-- `(@)([0-9]+)`. -/
def matchNodeSpecifier : List Char → Option (List Char)
  | '@' :: rest =>
    let ds := rest.takeWhile Char.isDigit
    if ds.isEmpty then none else some ('@' :: ds)
  | _ => none

/-- A nonempty greedy run of characters satisfying `p` (`,+`, `[ \n\t]+`,
the label-reference class `(...)+`). -/
def matchRun (p : Char → Bool) (cs : List Char) : Option (List Char) :=
  let r := cs.takeWhile p
  if r.isEmpty then none else some r

/-- `^((class)+?:)` — the lazy quantifier together with `:` not being in
the class means: the shortest nonempty class-run up to the first `:`. -/
def matchLabelGo (acc : List Char) : List Char → Option (List Char)
  | [] => none
  | c :: rest =>
    if c = ':' then
      if acc.isEmpty then none else some (acc.reverse ++ [':'])
    else if labelChar c then matchLabelGo (c :: acc) rest
    else none

/-- `#[ class]+`. -/
def matchComment : List Char → Option (List Char)
  | '#' :: rest =>
    let r := rest.takeWhile commentChar
    if r.isEmpty then none else some ('#' :: r)
  | _ => none

def matchOf : Matcher → List Char → Option (List Char)
  | .str p, cs => strMatch p cs
  | .regexInteger, cs => matchInteger cs
  | .regexNodeSpecifier, cs => matchNodeSpecifier cs
  | .regexSeparator, cs => matchRun (fun c => c = ',') cs
  | .regexLabel, cs => matchLabelGo [] cs
  | .regexLabelRef, cs => matchRun labelChar cs
  | .regexWhitespace, cs => matchRun (fun c => c = ' ' || c = '\n' || c = '\t') cs
  | .regexComment, cs => matchComment cs

structure TokenDef where
  name : TokKind
  matcher : Matcher
  source_sink : Bool × Bool
  converter : Converter
deriving DecidableEq, Repr

/-- `TokenType._defs` from src/tis_lexer.py, in source order. -/
def token_defs : List TokenDef :=
  [ ⟨.INSTRUCTION, .str "mov", (false, false), .toStr "mov"⟩,
    ⟨.INSTRUCTION, .str "nop", (false, false), .toStr "nop"⟩,
    ⟨.INSTRUCTION, .str "swp", (false, false), .toStr "swp"⟩,
    ⟨.INSTRUCTION, .str "swt", (false, false), .toStr "swt"⟩,
    ⟨.INSTRUCTION, .str "sav", (false, false), .toStr "sav"⟩,
    ⟨.INSTRUCTION, .str "add", (false, false), .toStr "add"⟩,
    ⟨.INSTRUCTION, .str "sub", (false, false), .toStr "sub"⟩,
    ⟨.INSTRUCTION, .str "neg", (false, false), .toStr "neg"⟩,
    ⟨.INSTRUCTION, .str "jmp", (false, false), .toStr "jmp"⟩,
    ⟨.INSTRUCTION, .str "jez", (false, false), .toStr "jez"⟩,
    ⟨.INSTRUCTION, .str "jnz", (false, false), .toStr "jnz"⟩,
    ⟨.INSTRUCTION, .str "jgz", (false, false), .toStr "jgz"⟩,
    ⟨.INSTRUCTION, .str "jlz", (false, false), .toStr "jlz"⟩,
    ⟨.INSTRUCTION, .str "jro", (false, false), .toStr "jro"⟩,
    ⟨.INSTRUCTION, .str "hcf", (false, false), .toStr "hcf"⟩,
    ⟨.REGISTER, .str "acc", (true, true), .toStr "ACC"⟩,
    ⟨.INTEGER, .regexInteger, (true, false), .toInt⟩,
    ⟨.PORT, .str "up", (true, true), .toStr "UP"⟩,
    ⟨.PORT, .str "down", (true, true), .toStr "DOWN"⟩,
    ⟨.PORT, .str "left", (true, true), .toStr "LEFT"⟩,
    ⟨.PORT, .str "right", (true, true), .toStr "RIGHT"⟩,
    ⟨.PORT, .str "last", (true, true), .toStr "LAST"⟩,
    ⟨.PORT, .str "any", (true, true), .toStr "ANY"⟩,
    ⟨.PORT, .str "nil", (true, true), .toStr "NIL"⟩,
    ⟨.NODE_SPECIFIER, .regexNodeSpecifier, (false, false), .nodeSpec⟩,
    ⟨.SEPARATOR, .regexSeparator, (false, false), .noneConv⟩,
    ⟨.LABEL, .regexLabel, (false, false), .dropColon⟩,
    ⟨.LABEL_REF, .regexLabelRef, (false, false), .identity⟩,
    ⟨.WHITESPACE, .regexWhitespace, (false, false), .noneConv⟩,
    ⟨.COMMENT, .regexComment, (false, false), .noneConv⟩ ]

def digitsToNat (ds : List Char) : Nat :=
  ds.foldl (fun a c => 10 * a + (c.toNat - 48)) 0

def strToInt : List Char → Int
  | '-' :: rest => - (digitsToNat rest : Int)
  | cs => (digitsToNat cs : Int)

def applyConv : Converter → List Char → TokenValue
  | .toStr s, _ => .str s
  | .toInt, cs => .int (strToInt cs)
  | .nodeSpec, cs => .int (strToInt (cs.drop 1))
  | .dropColon, cs => .str (String.mk cs.dropLast)
  | .identity, cs => .str (String.mk cs)
  | .noneConv, cs => .str (String.mk cs)

/-- `Token` from src/tis_lexer.py (`slice` kept as its two endpoints). -/
structure LexToken where
  type : TokKind
  value : TokenValue
  sliceStart : Nat
  sliceStop : Nat
deriving DecidableEq, Repr

/-- The condition making `get_first_token` drop a `LABEL_REF` match: the
best token so far is an instruction, port, register or integer token. -/
def suppressLabelRef (best : Option LexToken) : Bool :=
  match best with
  | some t => t.type = TokKind.INSTRUCTION || t.type = TokKind.PORT ||
      t.type = TokKind.REGISTER || t.type = TokKind.INTEGER
  | none => false

/-- One iteration of `get_first_token`'s rule loop: skip if the rule does
not match or matches shorter than the best; skip a `LABEL_REF` match when
the current best token is an instruction/port/register/integer; otherwise
make this match the best. -/
def gft_step (match_text : List Char) (start : Nat)
    (st : List Char × Option LexToken) (tdef : TokenDef) :
    List Char × Option LexToken :=
  match matchOf tdef.matcher match_text with
  | none => st
  | some match_value =>
    if match_value.length < st.1.length then st
    else if tdef.name = .LABEL_REF ∧ suppressLabelRef st.2 then st
    else
      (match_value, some ⟨tdef.name, applyConv tdef.converter match_value,
        start, start + match_value.length⟩)

/-- `get_first_token` from src/tis_lexer.py. -/
def get_first_token (source : String) (start : Nat) : Option LexToken :=
  let match_text := (source.drop start).toList
  (token_defs.foldl (gft_step match_text start) ([], none)).2

/- ===== Lexer toolbox ===== -/

theorem gft_step_fst_mono (mt : List Char) (s : Nat)
    (st : List Char × Option LexToken) (tdef : TokenDef) :
    st.1.length ≤ (gft_step mt s st tdef).1.length := by
  unfold gft_step
  cases hm : matchOf tdef.matcher mt with
  | none => exact le_refl _
  | some mv =>
    dsimp only []
    split
    · exact le_refl _
    · split
      · exact le_refl _
      · rename_i hlt _
        exact Nat.le_of_not_lt hlt

theorem gft_fold_fst_mono (mt : List Char) (s : Nat) (defs : List TokenDef)
    (st : List Char × Option LexToken) :
    st.1.length ≤ (defs.foldl (gft_step mt s) st).1.length := by
  induction defs generalizing st with
  | nil => exact le_refl _
  | cons d rest ih => exact le_trans (gft_step_fst_mono mt s st d) (ih _)

theorem gft_fold_fst_ge (mt : List Char) (s : Nat) (defs : List TokenDef)
    (st : List Char × Option LexToken) (tdef : TokenDef) (hmem : tdef ∈ defs)
    (hname : tdef.name ≠ TokKind.LABEL_REF) (mv : List Char)
    (hm : matchOf tdef.matcher mt = some mv) :
    mv.length ≤ (defs.foldl (gft_step mt s) st).1.length := by
  induction defs generalizing st with
  | nil => cases hmem
  | cons d rest ih =>
    rcases List.mem_cons.mp hmem with rfl | hmem2
    · refine le_trans ?_ (gft_fold_fst_mono mt s rest _)
      unfold gft_step
      rw [hm]
      dsimp only []
      split
      · rename_i hlt
        exact Nat.le_of_lt hlt
      · split
        · rename_i hsup
          exact absurd hsup.1 hname
        · exact le_refl _
    · exact ih _ hmem2

/-- The invariant relating the two components of `get_first_token`'s loop
state: the best token's slice length equals the best match length. -/
def GftCons (st : List Char × Option LexToken) : Prop :=
  (st.2 = none → st.1 = []) ∧
  ∀ t, st.2 = some t → t.sliceStop - t.sliceStart = st.1.length

theorem gft_step_cons (mt : List Char) (s : Nat)
    (st : List Char × Option LexToken) (tdef : TokenDef) (h : GftCons st) :
    GftCons (gft_step mt s st tdef) := by
  unfold gft_step
  cases hm : matchOf tdef.matcher mt with
  | none => exact h
  | some mv =>
    dsimp only []
    split
    · exact h
    · split
      · exact h
      · constructor
        · intro hx
          cases hx
        · intro t ht
          injection ht with ht
          subst ht
          show s + mv.length - s = mv.length
          omega

theorem gft_fold_cons (mt : List Char) (s : Nat) (defs : List TokenDef)
    (st : List Char × Option LexToken) (h : GftCons st) :
    GftCons (defs.foldl (gft_step mt s) st) := by
  induction defs generalizing st with
  | nil => exact h
  | cons d rest ih => exact ih _ (gft_step_cons mt s st d h)

/-- The length a string-pattern rule would match; 1 for regex rules. -/
def strPatLen : Matcher → Nat
  | .str p => p.length
  | _ => 1

theorem token_defs_str_nonempty :
    ∀ tdef ∈ token_defs, 0 < strPatLen tdef.matcher := by decide

theorem matchRun_length (p : Char → Bool) (cs mv : List Char)
    (h : matchRun p cs = some mv) : 0 < mv.length := by
  simp only [matchRun] at h
  split at h
  · cases h
  · rename_i hne
    injection h with h
    subst h
    simp only [List.isEmpty_iff] at hne
    exact List.length_pos.mpr hne

theorem matchInteger_length (cs mv : List Char)
    (h : matchInteger cs = some mv) : 0 < mv.length := by
  unfold matchInteger at h
  split at h
  · split at h
    · injection h with h
      subst h
      simp
    · cases h
  · split at h
    · injection h with h
      subst h
      simp
    · split at h
      · injection h with h
        subst h
        simp
      · cases h
  · cases h

theorem matchNodeSpecifier_length (cs mv : List Char)
    (h : matchNodeSpecifier cs = some mv) : 0 < mv.length := by
  unfold matchNodeSpecifier at h
  split at h
  · dsimp only [] at h
    split at h
    · cases h
    · injection h with h
      subst h
      simp
  · cases h

theorem matchLabelGo_length (cs : List Char) : ∀ (acc mv : List Char),
    matchLabelGo acc cs = some mv → 0 < mv.length := by
  induction cs with
  | nil => intro acc mv h; cases h
  | cons c rest ih =>
    intro acc mv h
    unfold matchLabelGo at h
    split at h
    · split at h
      · cases h
      · injection h with h
        subst h
        simp
    · split at h
      · exact ih _ _ h
      · cases h

theorem matchComment_length (cs mv : List Char)
    (h : matchComment cs = some mv) : 0 < mv.length := by
  unfold matchComment at h
  split at h
  · dsimp only [] at h
    split at h
    · cases h
    · injection h with h
      subst h
      simp
  · cases h

theorem matchOf_length (tdef : TokenDef) (hmem : tdef ∈ token_defs)
    (mt mv : List Char) (h : matchOf tdef.matcher mt = some mv) :
    0 < mv.length := by
  have hs := token_defs_str_nonempty tdef hmem
  cases hmat : tdef.matcher with
  | str p =>
    rw [hmat] at h hs
    simp only [matchOf, strMatch] at h
    split at h
    · injection h with h
      subst h
      show 0 < p.toList.length
      exact hs
    · cases h
  | regexInteger => rw [hmat] at h; exact matchInteger_length mt mv h
  | regexNodeSpecifier => rw [hmat] at h; exact matchNodeSpecifier_length mt mv h
  | regexSeparator => rw [hmat] at h; exact matchRun_length _ mt mv h
  | regexLabel => rw [hmat] at h; exact matchLabelGo_length mt [] mv h
  | regexLabelRef => rw [hmat] at h; exact matchRun_length _ mt mv h
  | regexWhitespace => rw [hmat] at h; exact matchRun_length _ mt mv h
  | regexComment => rw [hmat] at h; exact matchComment_length mt mv h

/-- C5 (amended): at every position, the token `get_first_token` emits is at
least as long as any match produced by a rule other than the generic
label-reference rule; the spec's stronger claim — that the label-reference
rule is suppressed in favour of an instruction/port/register/integer token
only when that token's match is at least as long — is refuted by
`C5_counterexample_movx`, where the suppression fires although the
label-reference match is strictly longer. -/
theorem C5_longest_match_among_non_labelref_rules
    (source : String) (start : Nat) (tdef : TokenDef)
    (hmem : tdef ∈ token_defs) (hname : tdef.name ≠ TokKind.LABEL_REF)
    (mv : List Char)
    (hm : matchOf tdef.matcher ((source.drop start).toList) = some mv) :
    ∃ t, get_first_token source start = some t ∧
      mv.length ≤ t.sliceStop - t.sliceStart := by
  have hlen := gft_fold_fst_ge ((source.drop start).toList) start token_defs
    ([], none) tdef hmem hname mv hm
  have hpos := matchOf_length tdef hmem _ mv hm
  have hcons := gft_fold_cons ((source.drop start).toList) start token_defs
    ([], none) ⟨fun _ => rfl, fun t ht => by cases ht⟩
  cases hq : (token_defs.foldl
      (gft_step ((source.drop start).toList) start) ([], none)).2 with
  | none =>
    rw [hcons.1 hq, List.length_nil] at hlen
    omega
  | some t =>
    refine ⟨t, hq, ?_⟩
    rw [hcons.2 t hq]
    exact hlen

/-- C5 witness: on "add" the instruction rule for "add" matches, and the
emitted token's slice is at least three characters long. -/
theorem C5_longest_match_among_non_labelref_rules_witness :
    (⟨TokKind.INSTRUCTION, Matcher.str "add", (false, false),
        Converter.toStr "add"⟩ : TokenDef) ∈ token_defs ∧
    ∃ t, get_first_token "add" 0 = some t ∧
      ("add".toList).length ≤ t.sliceStop - t.sliceStart :=
  ⟨by decide,
    C5_longest_match_among_non_labelref_rules "add" 0
      ⟨TokKind.INSTRUCTION, Matcher.str "add", (false, false),
        Converter.toStr "add"⟩
      (by decide) (by decide) "add".toList (by decide)⟩

/-- C5 counterexample: on "movx" the label-reference rule matches all four
characters, yet `get_first_token` emits the three-character instruction
token "mov": the label-reference suppression fires whenever the best token
so far is an instruction/port/register/integer, with no length comparison. -/
theorem C5_counterexample_movx :
    matchOf Matcher.regexLabelRef ("movx".drop 0).toList =
      some "movx".toList ∧
    (⟨TokKind.LABEL_REF, Matcher.regexLabelRef, (false, false),
        Converter.identity⟩ : TokenDef) ∈ token_defs ∧
    get_first_token "movx" 0 =
      some ⟨TokKind.INSTRUCTION, TokenValue.str "mov", 0, 3⟩ :=
  ⟨by decide, by decide, by decide⟩
